import Mathlib

/-!
# C0VM: the bytecode interpreter `execute` of `src/c0vm.c`

A shallow embedding of the fetch-decode-execute loop.  One iteration of the
`while (true)` loop is the function `step`; `run` iterates it with a step
budget and `execute` starts it on function 0.

Conventions of the embedding
* machine integers are `Int`/`Nat` with explicit reductions (`to_int32`,
  `to_int16`, `to_int8`, `to_uint32`, `to_size_t`) wherever the C code converts
  or can overflow;
* the operand stack `S` is a list whose head is the top of the stack, the local
  array `V` and the code `P` are lists indexed from 0, the call stack is a list
  of saved frames whose head is the most recent one;
* `pc++` is plain successor: `pc` indexes the code array, which lies in memory,
  so the increment cannot wrap; `pc + (int32_t) d` is reduced modulo `2^64`
  because the addend may be negative;
* the library functions that abort the run (`c0_arith_error`, `c0_memory_error`,
  `c0_user_error`, `c0_assertion_failure`, `abort`) end the step with a `Fault`.
-/

namespace C0VM

/-! ## Machine integers -/

/-- A code byte (`ubyte`); well-formed code only holds values below 256. -/
abbrev ubyte := Nat

/-- Conversion to `int32_t`: reduction modulo `2^32` into `[-2^31, 2^31)`. -/
def to_int32 (x : Int) : Int := (x + 2147483648) % 4294967296 - 2147483648

/-- Conversion to `int16_t`: reduction modulo `2^16` into `[-2^15, 2^15)`. -/
def to_int16 (x : Int) : Int := (x + 32768) % 65536 - 32768

/-- Conversion to `signed char`: reduction modulo `2^8` into `[-128, 128)`. -/
def to_int8 (x : Int) : Int := (x + 128) % 256 - 128

/-- Conversion to `uint32_t`: reduction modulo `2^32` into `[0, 2^32)`. -/
def to_uint32 (x : Int) : Nat := (x % 4294967296).toNat

/-- Conversion to `uint16_t`. -/
def to_uint16 (x : Int) : Nat := (x % 65536).toNat

/-- Conversion to `uint64_t`. -/
def to_uint64 (x : Int) : Nat := (x % 18446744073709551616).toNat

/-- Conversion to `size_t` (64 bits): reduction modulo `2^64`. -/
def to_size_t (x : Int) : Nat := (x % 18446744073709551616).toNat

/-- The range of `int32_t`. -/
def in_int32 (x : Int) : Prop := -2147483648 ≤ x ∧ x < 2147483648

instance (x : Int) : Decidable (in_int32 x) := by
  unfold in_int32; infer_instance

/-! ## Value cells -/

/-- Modelled from the spec: `c0_value` of `lib/c0vm.h` ("a machine word that can
hold either a 32-bit signed integer or an opaque memory reference ... without
tagging").  The cell is the signed reading of the machine word; a reference is
an address and the null reference is 0. -/
abbrev c0_value := Int

/-- The null pointer. -/
def NULL : Int := 0

/-- Modelled from the spec: `int2val` of `lib/c0vm.h`, the cell holding an integer. -/
def int2val (i : Int) : c0_value := i

/-- Modelled from the spec: `val2int` of `lib/c0vm.h`, the 32-bit integer reading
of a cell. -/
def val2int (v : c0_value) : Int := to_int32 v

/-- Modelled from the spec: `ptr2val` of `lib/c0vm.h`, the cell holding a reference. -/
def ptr2val (p : Int) : c0_value := p

/-- Modelled from the spec: `val2ptr` of `lib/c0vm.h`, the reference reading of a cell. -/
def val2ptr (v : c0_value) : Int := v

/-- Modelled from the spec: `val_equal` of `lib/c0vm.h` ("compares underlying
representation bit-for-bit"). -/
def val_equal (v1 v2 : c0_value) : Bool := v1 == v2

/-! ## Heap -/

/-- Modelled from the spec: `c0_array` of `lib/c0vm.h`, the header of an array block
(`count`, `elt_size`, and the address `elems` of the element storage). -/
structure c0_array where
  count : Nat
  elt_size : Nat
  elems : Int
deriving DecidableEq, Repr

/-- The heap: byte contents by address, the array headers by address, and the
allocation frontier (every address above `brk` is unallocated). -/
structure Heap where
  bytes : Int → Nat
  arrays : Int → Option c0_array
  brk : Nat

/-- Modelled from the spec: `xcalloc` of `lib/xalloc.h` ("returns a reference to an
n-byte zero-initialized block"); the arena never runs out, blocks are never
reclaimed and the returned address is never null. -/
def xcalloc (h : Heap) (nobj size : Nat) : Int × Heap :=
  let p : Int := (h.brk : Int) + 1
  (p, { h with
          bytes := fun a => if p ≤ a ∧ a < p + (nobj * size : Nat) then 0 else h.bytes a
          brk := h.brk + 1 + nobj * size })

/-- Modelled from the spec: `xmalloc` of `lib/xalloc.h`, a fresh uninitialised
block of `size` bytes. -/
def xmalloc (h : Heap) (size : Nat) : Int × Heap :=
  ((h.brk : Int) + 1, { h with brk := h.brk + 1 + size })

/-- Modelled from the spec: `sizeof(c0_array)`. -/
def sizeof_c0_array : Nat := 16

/-- Stores an array header at address `arr` (the assignments `arr->count = ...`,
`arr->elt_size = ...`, `arr->elems = ...`). -/
def Heap.set_array (h : Heap) (arr : Int) (a : c0_array) : Heap :=
  { h with arrays := fun x => if x = arr then some a else h.arrays x }

/-- A 4-byte little-endian read `*(uint32_t*)a`. -/
def read32 (m : Int → Nat) (a : Int) : Nat :=
  m a % 256 + 256 * (m (a + 1) % 256) + 65536 * (m (a + 2) % 256) + 16777216 * (m (a + 3) % 256)

/-- A 4-byte little-endian write `*(uint32_t*)a = x`. -/
def write32 (m : Int → Nat) (a : Int) (x : Nat) : Int → Nat :=
  fun b =>
    if b = a then x % 256
    else if b = a + 1 then x / 256 % 256
    else if b = a + 2 then x / 65536 % 256
    else if b = a + 3 then x / 16777216 % 256
    else m b

/-- An 8-byte little-endian write `*(uint64_t*)a = x`. -/
def write64 (m : Int → Nat) (a : Int) (x : Nat) : Int → Nat :=
  write32 (write32 m a (x % 4294967296)) (a + 4) (x / 4294967296 % 4294967296)

/-! ## Program representation -/

/-- Modelled from the spec: `struct function_info` of `lib/c0vm.h`. -/
structure function_info where
  num_args : Nat
  num_vars : Nat
  code : List ubyte
deriving DecidableEq, Repr

/-- Modelled from the spec: `struct native_info` of `lib/c0vm.h`. -/
structure native_info where
  num_args : Nat
  function_table_index : Nat
deriving DecidableEq, Repr

/-- Modelled from the spec: `struct bc0_file` of `lib/c0vm.h`; `string_pool` is the
address of the string pool. -/
structure bc0_file where
  int_pool : List Int
  string_pool : Int
  function_pool : List function_info
  native_pool : List native_info
deriving DecidableEq, Repr

/-- Modelled from the spec: `native_fn`, a host function from the argument array to
one value cell; the table `native_function_table` is a list of them. -/
abbrev native_fn := List c0_value → c0_value

/-- The C subscript `xs[i]` with an `int` index; outside the array it is not defined. -/
def index? {α : Type} (xs : List α) (i : Int) : Option α :=
  if i < 0 then none else xs[i.toNat]?

/-! ## Opcodes

The header `lib/c0vm.h` that numbers the opcodes is not among the sources; the byte
values below are those of the C0VM bytecode format.  The statements only depend on
the values being pairwise distinct. -/

/-- Modelled from the spec: the opcode `IADD` of `enum instructions` in `lib/c0vm.h`. -/
def IADD : ubyte := 0x60
/-- Modelled from the spec: the opcode `IAND` of `enum instructions` in `lib/c0vm.h`. -/
def IAND : ubyte := 0x7E
/-- Modelled from the spec: the opcode `IDIV` of `enum instructions` in `lib/c0vm.h`. -/
def IDIV : ubyte := 0x6C
/-- Modelled from the spec: the opcode `IMUL` of `enum instructions` in `lib/c0vm.h`. -/
def IMUL : ubyte := 0x68
/-- Modelled from the spec: the opcode `IOR` of `enum instructions` in `lib/c0vm.h`. -/
def IOR : ubyte := 0x80
/-- Modelled from the spec: the opcode `IREM` of `enum instructions` in `lib/c0vm.h`. -/
def IREM : ubyte := 0x70
/-- Modelled from the spec: the opcode `ISHL` of `enum instructions` in `lib/c0vm.h`. -/
def ISHL : ubyte := 0x78
/-- Modelled from the spec: the opcode `ISHR` of `enum instructions` in `lib/c0vm.h`. -/
def ISHR : ubyte := 0x7A
/-- Modelled from the spec: the opcode `ISUB` of `enum instructions` in `lib/c0vm.h`. -/
def ISUB : ubyte := 0x64
/-- Modelled from the spec: the opcode `IXOR` of `enum instructions` in `lib/c0vm.h`. -/
def IXOR : ubyte := 0x82
/-- Modelled from the spec: the opcode `DUP` of `enum instructions` in `lib/c0vm.h`. -/
def DUP : ubyte := 0x59
/-- Modelled from the spec: the opcode `POP` of `enum instructions` in `lib/c0vm.h`. -/
def POP : ubyte := 0x57
/-- Modelled from the spec: the opcode `SWAP` of `enum instructions` in `lib/c0vm.h`. -/
def SWAP : ubyte := 0x5F
/-- Modelled from the spec: the opcode `NEWARRAY` of `enum instructions` in `lib/c0vm.h`. -/
def NEWARRAY : ubyte := 0xBC
/-- Modelled from the spec: the opcode `ARRAYLENGTH` of `enum instructions` in `lib/c0vm.h`. -/
def ARRAYLENGTH : ubyte := 0xBE
/-- Modelled from the spec: the opcode `NEW` of `enum instructions` in `lib/c0vm.h`. -/
def NEW : ubyte := 0xBB
/-- Modelled from the spec: the opcode `AADDF` of `enum instructions` in `lib/c0vm.h`. -/
def AADDF : ubyte := 0x62
/-- Modelled from the spec: the opcode `AADDS` of `enum instructions` in `lib/c0vm.h`. -/
def AADDS : ubyte := 0x63
/-- Modelled from the spec: the opcode `IMLOAD` of `enum instructions` in `lib/c0vm.h`. -/
def IMLOAD : ubyte := 0x2E
/-- Modelled from the spec: the opcode `AMLOAD` of `enum instructions` in `lib/c0vm.h`. -/
def AMLOAD : ubyte := 0x2F
/-- Modelled from the spec: the opcode `IMSTORE` of `enum instructions` in `lib/c0vm.h`. -/
def IMSTORE : ubyte := 0x4E
/-- Modelled from the spec: the opcode `AMSTORE` of `enum instructions` in `lib/c0vm.h`. -/
def AMSTORE : ubyte := 0x4F
/-- Modelled from the spec: the opcode `CMLOAD` of `enum instructions` in `lib/c0vm.h`. -/
def CMLOAD : ubyte := 0x34
/-- Modelled from the spec: the opcode `CMSTORE` of `enum instructions` in `lib/c0vm.h`. -/
def CMSTORE : ubyte := 0x55
/-- Modelled from the spec: the opcode `VLOAD` of `enum instructions` in `lib/c0vm.h`. -/
def VLOAD : ubyte := 0x15
/-- Modelled from the spec: the opcode `VSTORE` of `enum instructions` in `lib/c0vm.h`. -/
def VSTORE : ubyte := 0x36
/-- Modelled from the spec: the opcode `ACONST_NULL` of `enum instructions` in `lib/c0vm.h`. -/
def ACONST_NULL : ubyte := 0x01
/-- Modelled from the spec: the opcode `BIPUSH` of `enum instructions` in `lib/c0vm.h`. -/
def BIPUSH : ubyte := 0x10
/-- Modelled from the spec: the opcode `ILDC` of `enum instructions` in `lib/c0vm.h`. -/
def ILDC : ubyte := 0x13
/-- Modelled from the spec: the opcode `ALDC` of `enum instructions` in `lib/c0vm.h`. -/
def ALDC : ubyte := 0x14
/-- Modelled from the spec: the opcode `NOP` of `enum instructions` in `lib/c0vm.h`. -/
def NOP : ubyte := 0x00
/-- Modelled from the spec: the opcode `IF_CMPEQ` of `enum instructions` in `lib/c0vm.h`. -/
def IF_CMPEQ : ubyte := 0x9F
/-- Modelled from the spec: the opcode `IF_CMPNE` of `enum instructions` in `lib/c0vm.h`. -/
def IF_CMPNE : ubyte := 0xA0
/-- Modelled from the spec: the opcode `IF_ICMPLT` of `enum instructions` in `lib/c0vm.h`. -/
def IF_ICMPLT : ubyte := 0xA1
/-- Modelled from the spec: the opcode `IF_ICMPGE` of `enum instructions` in `lib/c0vm.h`. -/
def IF_ICMPGE : ubyte := 0xA2
/-- Modelled from the spec: the opcode `IF_ICMPGT` of `enum instructions` in `lib/c0vm.h`. -/
def IF_ICMPGT : ubyte := 0xA3
/-- Modelled from the spec: the opcode `IF_ICMPLE` of `enum instructions` in `lib/c0vm.h`. -/
def IF_ICMPLE : ubyte := 0xA4
/-- Modelled from the spec: the opcode `GOTO` of `enum instructions` in `lib/c0vm.h`. -/
def GOTO : ubyte := 0xA7
/-- Modelled from the spec: the opcode `ATHROW` of `enum instructions` in `lib/c0vm.h`. -/
def ATHROW : ubyte := 0xBF
/-- Modelled from the spec: the opcode `ASSERT` of `enum instructions` in `lib/c0vm.h`. -/
def ASSERT : ubyte := 0xCF
/-- Modelled from the spec: the opcode `INVOKESTATIC` of `enum instructions` in `lib/c0vm.h`. -/
def INVOKESTATIC : ubyte := 0xB8
/-- Modelled from the spec: the opcode `INVOKENATIVE` of `enum instructions` in `lib/c0vm.h`. -/
def INVOKENATIVE : ubyte := 0xB7
/-- Modelled from the spec: the opcode `RETURN` of `enum instructions` in `lib/c0vm.h`. -/
def RETURN : ubyte := 0xB0
/-- Modelled from the spec: the opcode `CHECKTAG` of `enum instructions` in `lib/c0vm.h`. -/
def CHECKTAG : ubyte := 0xC0
/-- Modelled from the spec: the opcode `HASTAG` of `enum instructions` in `lib/c0vm.h`. -/
def HASTAG : ubyte := 0xC1
/-- Modelled from the spec: the opcode `ADDTAG` of `enum instructions` in `lib/c0vm.h`. -/
def ADDTAG : ubyte := 0xC2
/-- Modelled from the spec: the opcode `ADDROF_STATIC` of `enum instructions` in `lib/c0vm.h`. -/
def ADDROF_STATIC : ubyte := 0x16
/-- Modelled from the spec: the opcode `ADDROF_NATIVE` of `enum instructions` in `lib/c0vm.h`. -/
def ADDROF_NATIVE : ubyte := 0x17
/-- Modelled from the spec: the opcode `INVOKEDYNAMIC` of `enum instructions` in `lib/c0vm.h`. -/
def INVOKEDYNAMIC : ubyte := 0xB6

/-- The `case` labels of the `switch` in `execute` that have a handler. -/
inductive Instr where
  | POP | DUP | SWAP | RETURN
  | IADD | ISUB | IMUL | IDIV | IREM | IAND | IOR | IXOR | ISHR | ISHL
  | BIPUSH | ILDC | ALDC | ACONST_NULL
  | VLOAD | VSTORE
  | ATHROW | ASSERT
  | NOP | IF_CMPEQ | IF_CMPNE | IF_ICMPLT | IF_ICMPGE | IF_ICMPGT | IF_ICMPLE | GOTO
  | INVOKESTATIC | INVOKENATIVE
  | NEW | IMLOAD | IMSTORE | AMLOAD | AMSTORE | CMLOAD | CMSTORE | AADDF
  | NEWARRAY | ARRAYLENGTH | AADDS
deriving DecidableEq, Repr

/-- The dispatch of `switch (P[pc])`: the handler selected by an opcode byte, or
`none` for the labels that fall through to `default` and for every other byte. -/
def decode (op : ubyte) : Option Instr :=
  if op = POP then some .POP
  else if op = DUP then some .DUP
  else if op = SWAP then some .SWAP
  else if op = RETURN then some .RETURN
  else if op = IADD then some .IADD
  else if op = ISUB then some .ISUB
  else if op = IMUL then some .IMUL
  else if op = IDIV then some .IDIV
  else if op = IREM then some .IREM
  else if op = IAND then some .IAND
  else if op = IOR then some .IOR
  else if op = IXOR then some .IXOR
  else if op = ISHR then some .ISHR
  else if op = ISHL then some .ISHL
  else if op = BIPUSH then some .BIPUSH
  else if op = ILDC then some .ILDC
  else if op = ALDC then some .ALDC
  else if op = ACONST_NULL then some .ACONST_NULL
  else if op = VLOAD then some .VLOAD
  else if op = VSTORE then some .VSTORE
  else if op = ATHROW then some .ATHROW
  else if op = ASSERT then some .ASSERT
  else if op = NOP then some .NOP
  else if op = IF_CMPEQ then some .IF_CMPEQ
  else if op = IF_CMPNE then some .IF_CMPNE
  else if op = IF_ICMPLT then some .IF_ICMPLT
  else if op = IF_ICMPGE then some .IF_ICMPGE
  else if op = IF_ICMPGT then some .IF_ICMPGT
  else if op = IF_ICMPLE then some .IF_ICMPLE
  else if op = GOTO then some .GOTO
  else if op = INVOKESTATIC then some .INVOKESTATIC
  else if op = INVOKENATIVE then some .INVOKENATIVE
  else if op = NEW then some .NEW
  else if op = IMLOAD then some .IMLOAD
  else if op = IMSTORE then some .IMSTORE
  else if op = AMLOAD then some .AMLOAD
  else if op = AMSTORE then some .AMSTORE
  else if op = CMLOAD then some .CMLOAD
  else if op = CMSTORE then some .CMSTORE
  else if op = AADDF then some .AADDF
  else if op = NEWARRAY then some .NEWARRAY
  else if op = ARRAYLENGTH then some .ARRAYLENGTH
  else if op = AADDS then some .AADDS
  else none

/-! ## Interpreter state -/

/-- A saved frame (`struct frame_info`).  The operand stack `c0v_stack_t` of
`lib/c0v_stack.h` is a list with its top at the head. -/
structure frame where
  S : List c0_value
  P : List ubyte
  pc : Nat
  V : List c0_value
deriving DecidableEq, Repr

/-- The variables of `execute`: the active frame (`S`, `P`, `pc`, `V`), the call
stack (`gstack_t` of `lib/stack.h`, a list with its top at the head), and the heap
that references point into. -/
structure State where
  S : List c0_value
  P : List ubyte
  pc : Nat
  V : List c0_value
  callStack : List frame
  H : Heap

/-- Modelled from the spec: the fatal errors of the run, raised by the functions of
`lib/c0vm_abort.h` and by the contracts of the stack library, none of which
returns. -/
inductive Fault where
  /-- The call `c0_arith_error(msg)`. -/
  | arith_error (msg : String)
  /-- The call `c0_memory_error(msg)`. -/
  | memory_error (msg : String)
  /-- The call `c0_user_error(a)`, `a` the address of the message. -/
  | user_error (a : Int)
  /-- The call `c0_assertion_failure(a)`, `a` the address of the message. -/
  | assertion_failure (a : Int)
  /-- The branch `default:` of the switch, `abort()` after printing the opcode. -/
  | invalid_opcode (op : ubyte)
  /-- A failed library contract: `c0v_pop` on an empty stack, or the `ASSERT` of `RETURN`. -/
  | internal
  /-- A read or write outside an array of the interpreter (code, locals, pools,
  native table) or through a reference that is not an array header. -/
  | undefined
deriving DecidableEq, Repr

/-- The outcome of one iteration of the loop. -/
inductive Result where
  /-- The iteration ended with `break`; the loop goes on from this state. -/
  | next (s : State)
  /-- The statement `return val2int(retval)`. -/
  | done (r : Int)
  /-- The run was aborted. -/
  | fault (f : Fault)

/-! ## One iteration of the loop -/

/-- The argument loop `for (i = n-1; i >= 0; i--) V[i] = c0v_pop(S);` run from
`i = n-1`: the new array and the remaining stack; `internal` when the stack runs
empty, `undefined` when `V` has no slot `i`. -/
def pop_args : Nat → List c0_value → List c0_value → Except Fault (List c0_value × List c0_value)
  | 0, S, V => .ok (V, S)
  | i + 1, S, V =>
    match S with
    | [] => .error .internal
    | v :: S1 => if i < V.length then pop_args i S1 (V.set i v) else .error .undefined

/-- The C expression `(b1 << 8) | b2` on two code bytes. -/
def operand16 (b1 b2 : ubyte) : Nat := (b1 <<< 8) ||| b2

/-- The new `pc` of a taken conditional branch whose opcode is at position `pc`:
after the two `pc++` that read the operand bytes, the assignment
`pc = pc + (int32_t)(((b1 << 8) | b2) - (int32_t)2)` with `b1` an `int32_t`, the sum
being taken in `size_t`. -/
def branch_target (pc : Nat) (b1 b2 : ubyte) : Nat :=
  to_size_t ((pc + 2 : Nat) + to_int32 (to_int32 (operand16 b1 b2) - 2))

/-- The function index `INVOKESTATIC` computes from its operand bytes:
`(int16_t)(((uint16_t)(b1 << 8) | b2))`. -/
def static_index (b1 b2 : ubyte) : Int := to_int16 (to_uint16 (b1 <<< 8 : Nat) ||| b2 : Nat)

/-- The body of `while (true) { switch (P[pc]) { ... } }` of `execute`: one
instruction executed in state `s`. -/
def step (bc0 : bc0_file) (native_function_table : List native_fn) (s : State) : Result :=
  match s.P[s.pc]? with
  | none => .fault .undefined
  | some op =>
  match decode op with
  | none => .fault (.invalid_opcode op)
  | some .POP =>
    match s.S with
    | _ :: rest => .next { s with pc := s.pc + 1, S := rest }
    | [] => .fault .internal
  | some .DUP =>
    match s.S with
    | v :: rest => .next { s with pc := s.pc + 1, S := v :: v :: rest }
    | [] => .fault .internal
  | some .SWAP =>
    match s.S with
    | v2 :: v1 :: rest => .next { s with pc := s.pc + 1, S := v1 :: v2 :: rest }
    | _ => .fault .internal
  | some .RETURN =>
    match s.S with
    | [] => .fault .internal
    | retval :: S1 =>
      if S1 ≠ [] then .fault .internal
      else
        match s.callStack with
        | [] => .done (val2int retval)
        | current_frame :: callStack1 =>
          .next { s with
                    S := retval :: current_frame.S
                    P := current_frame.P
                    pc := current_frame.pc
                    V := current_frame.V
                    callStack := callStack1 }
  | some .IADD =>
    match s.S with
    | v2 :: v1 :: rest =>
      .next { s with pc := s.pc + 1,
                     S := int2val (to_int32 (val2int v1 + val2int v2)) :: rest }
    | _ => .fault .internal
  | some .ISUB =>
    match s.S with
    | v2 :: v1 :: rest =>
      .next { s with pc := s.pc + 1,
                     S := int2val (to_int32 (val2int v1 - val2int v2)) :: rest }
    | _ => .fault .internal
  | some .IMUL =>
    match s.S with
    | v2 :: v1 :: rest =>
      .next { s with pc := s.pc + 1,
                     S := int2val (to_int32 (val2int v1 * val2int v2)) :: rest }
    | _ => .fault .internal
  | some .IDIV =>
    match s.S with
    | [] => .fault .internal
    | v2 :: S1 =>
      if val2int v2 = 0 then .fault (.arith_error "Division by 0")
      else
        match S1 with
        | [] => .fault .internal
        | v1 :: rest =>
          if val2int v1 = to_int32 0x80000000 ∧ val2int v2 = -1 then
            .fault (.arith_error "Dividing int_min by -1")
          else
            .next { s with pc := s.pc + 1,
                           S := int2val (to_int32 (Int.tdiv (val2int v1) (val2int v2))) :: rest }
  | some .IREM =>
    match s.S with
    | [] => .fault .internal
    | v2 :: S1 =>
      if val2int v2 = 0 then .fault (.arith_error "Division by 0")
      else
        match S1 with
        | [] => .fault .internal
        | v1 :: rest =>
          if val2int v1 = to_int32 0x80000000 ∧ val2int v2 = -1 then
            .fault (.arith_error "Dividing int_min by -1")
          else
            .next { s with pc := s.pc + 1,
                           S := int2val (to_int32 (Int.tmod (val2int v1) (val2int v2))) :: rest }
  | some .IAND =>
    match s.S with
    | v2 :: v1 :: rest =>
      .next { s with pc := s.pc + 1,
                     S := int2val (to_int32 ((to_uint32 (val2int v1) &&& to_uint32 (val2int v2) : Nat))) :: rest }
    | _ => .fault .internal
  | some .IOR =>
    match s.S with
    | v2 :: v1 :: rest =>
      .next { s with pc := s.pc + 1,
                     S := int2val (to_int32 ((to_uint32 (val2int v1) ||| to_uint32 (val2int v2) : Nat))) :: rest }
    | _ => .fault .internal
  | some .IXOR =>
    match s.S with
    | v2 :: v1 :: rest =>
      .next { s with pc := s.pc + 1,
                     S := int2val (to_int32 ((to_uint32 (val2int v1) ^^^ to_uint32 (val2int v2) : Nat))) :: rest }
    | _ => .fault .internal
  | some .ISHR =>
    match s.S with
    | [] => .fault .internal
    | v2 :: S1 =>
      if val2int v2 < 0 ∨ 32 ≤ val2int v2 then
        .fault (.arith_error "Shifting right by over 32 bits")
      else
        match S1 with
        | [] => .fault .internal
        | v1 :: rest =>
          .next { s with pc := s.pc + 1,
                         S := int2val (to_int32 (Int.shiftRight (val2int v1) (val2int v2).toNat)) :: rest }
  | some .ISHL =>
    match s.S with
    | [] => .fault .internal
    | v2 :: S1 =>
      if val2int v2 < 0 ∨ 32 ≤ val2int v2 then
        .fault (.arith_error "Shifting left by over 32 bits")
      else
        match S1 with
        | [] => .fault .internal
        | v1 :: rest =>
          .next { s with pc := s.pc + 1,
                         S := int2val (to_int32 ((to_uint32 (val2int v1) <<< (val2int v2).toNat : Nat))) :: rest }
  | some .BIPUSH =>
    match s.P[s.pc + 1]? with
    | none => .fault .undefined
    | some b => .next { s with pc := s.pc + 2, S := int2val (to_int32 (to_int8 b)) :: s.S }
  | some .ILDC =>
    match s.P[s.pc + 1]?, s.P[s.pc + 2]? with
    | some b1, some b2 =>
      match index? bc0.int_pool (operand16 b1 b2) with
      | none => .fault .undefined
      | some i => .next { s with pc := s.pc + 3, S := int2val i :: s.S }
    | _, _ => .fault .undefined
  | some .ALDC =>
    match s.P[s.pc + 1]?, s.P[s.pc + 2]? with
    | some b1, some b2 =>
      .next { s with pc := s.pc + 3, S := ptr2val (bc0.string_pool + operand16 b1 b2) :: s.S }
    | _, _ => .fault .undefined
  | some .ACONST_NULL =>
    .next { s with pc := s.pc + 1, S := ptr2val NULL :: s.S }
  | some .VLOAD =>
    match s.P[s.pc + 1]? with
    | none => .fault .undefined
    | some b =>
      match s.V[b]? with
      | none => .fault .undefined
      | some v => .next { s with pc := s.pc + 2, S := v :: s.S }
  | some .VSTORE =>
    match s.P[s.pc + 1]? with
    | none => .fault .undefined
    | some b =>
      match s.S with
      | [] => .fault .internal
      | v :: rest =>
        if b < s.V.length then .next { s with pc := s.pc + 2, S := rest, V := s.V.set b v }
        else .fault .undefined
  | some .ATHROW =>
    match s.S with
    | [] => .fault .internal
    | v :: _ => .fault (.user_error (val2ptr v))
  | some .ASSERT =>
    match s.S with
    | va :: vi :: rest =>
      if val2int vi = 0 then .fault (.assertion_failure (val2ptr va))
      else .next { s with pc := s.pc + 1, S := rest }
    | _ => .fault .internal
  | some .NOP => .next { s with pc := s.pc + 1 }
  | some .IF_CMPEQ =>
    match s.P[s.pc + 1]?, s.P[s.pc + 2]? with
    | some b1, some b2 =>
      match s.S with
      | v2 :: v1 :: rest =>
        if val_equal v1 v2 then
          .next { s with S := rest,
                         pc := branch_target s.pc b1 b2 }
        else .next { s with S := rest, pc := s.pc + 3 }
      | _ => .fault .internal
    | _, _ => .fault .undefined
  | some .IF_CMPNE =>
    match s.P[s.pc + 1]?, s.P[s.pc + 2]? with
    | some b1, some b2 =>
      match s.S with
      | v2 :: v1 :: rest =>
        if !val_equal v1 v2 then
          .next { s with S := rest,
                         pc := branch_target s.pc b1 b2 }
        else .next { s with S := rest, pc := s.pc + 3 }
      | _ => .fault .internal
    | _, _ => .fault .undefined
  | some .IF_ICMPLT =>
    match s.P[s.pc + 1]?, s.P[s.pc + 2]? with
    | some b1, some b2 =>
      match s.S with
      | v2 :: v1 :: rest =>
        if val2int v1 < val2int v2 then
          .next { s with S := rest,
                         pc := branch_target s.pc b1 b2 }
        else .next { s with S := rest, pc := s.pc + 3 }
      | _ => .fault .internal
    | _, _ => .fault .undefined
  | some .IF_ICMPGE =>
    match s.P[s.pc + 1]?, s.P[s.pc + 2]? with
    | some b1, some b2 =>
      match s.S with
      | v2 :: v1 :: rest =>
        if val2int v1 ≥ val2int v2 then
          .next { s with S := rest,
                         pc := branch_target s.pc b1 b2 }
        else .next { s with S := rest, pc := s.pc + 3 }
      | _ => .fault .internal
    | _, _ => .fault .undefined
  | some .IF_ICMPGT =>
    match s.P[s.pc + 1]?, s.P[s.pc + 2]? with
    | some b1, some b2 =>
      match s.S with
      | v2 :: v1 :: rest =>
        if val2int v1 > val2int v2 then
          .next { s with S := rest,
                         pc := branch_target s.pc b1 b2 }
        else .next { s with S := rest, pc := s.pc + 3 }
      | _ => .fault .internal
    | _, _ => .fault .undefined
  | some .IF_ICMPLE =>
    match s.P[s.pc + 1]?, s.P[s.pc + 2]? with
    | some b1, some b2 =>
      match s.S with
      | v2 :: v1 :: rest =>
        if val2int v1 ≤ val2int v2 then
          .next { s with S := rest,
                         pc := branch_target s.pc b1 b2 }
        else .next { s with S := rest, pc := s.pc + 3 }
      | _ => .fault .internal
    | _, _ => .fault .undefined
  | some .GOTO =>
    match s.P[s.pc + 1]?, s.P[s.pc + 2]? with
    | some b1, some b2 =>
      .next { s with pc := to_size_t ((s.pc : Nat) + to_int16 (operand16 b1 b2)) }
    | _, _ => .fault .undefined
  | some .INVOKESTATIC =>
    match s.P[s.pc + 1]?, s.P[s.pc + 2]? with
    | some b1, some b2 =>
      let ind : Int := static_index b1 b2
      match index? bc0.function_pool ind with
      | none => .fault .undefined
      | some g =>
        match pop_args g.num_args s.S (List.replicate g.num_vars (0 : c0_value)) with
        | .error f => .fault f
        | .ok (V1, S1) =>
          let new_frame : frame := { P := s.P, pc := s.pc + 3, V := s.V, S := S1 }
          .next { s with
                    P := g.code
                    pc := 0
                    V := V1
                    callStack := new_frame :: s.callStack
                    S := [] }
    | _, _ => .fault .undefined
  | some .INVOKENATIVE =>
    match s.P[s.pc + 1]?, s.P[s.pc + 2]? with
    | some b1, some b2 =>
      let ind : Int := to_int16 (operand16 b1 b2)
      match index? bc0.native_pool ind with
      | none => .fault .undefined
      | some g =>
        match pop_args g.num_args s.S (List.replicate g.num_args (0 : c0_value)) with
        | .error f => .fault f
        | .ok (ARGS, S1) =>
          match native_function_table[g.function_table_index]? with
          | none => .fault .undefined
          | some native_func => .next { s with S := native_func ARGS :: S1, pc := s.pc + 3 }
    | _, _ => .fault .undefined
  | some .NEW =>
    match s.P[s.pc + 1]? with
    | none => .fault .undefined
    | some b =>
      let (C, H1) := xcalloc s.H 1 (to_int32 b).toNat
      if C = NULL then .fault (.memory_error "Can't store NULL pointer")
      else .next { s with pc := s.pc + 2, S := ptr2val C :: s.S, H := H1 }
  | some .IMLOAD =>
    match s.S with
    | [] => .fault .internal
    | v :: rest =>
      if val2ptr v = NULL then .fault (.memory_error "Can't store NULL pointer")
      else
        .next { s with pc := s.pc + 1,
                       S := int2val (to_int32 (read32 s.H.bytes (val2ptr v))) :: rest }
  | some .IMSTORE =>
    match s.S with
    | [] => .fault .internal
    | v :: S1 =>
      if val2ptr v = NULL then .fault (.memory_error "Can't store NULL pointer")
      else
        match S1 with
        | [] => .fault .internal
        | vi :: rest =>
          .next { s with pc := s.pc + 1, S := rest,
                         H := { s.H with bytes := write32 s.H.bytes (val2ptr v) (to_uint32 (val2int vi)) } }
  | some .AMLOAD =>
    match s.S with
    | [] => .fault .internal
    | v :: rest =>
      if val2ptr v = NULL then .fault (.memory_error "Can't store NULL pointer")
      else .next { s with pc := s.pc + 1, S := ptr2val (val2ptr v) :: rest }
  | some .AMSTORE =>
    match s.S with
    | [] => .fault .internal
    | v :: S1 =>
      if val2ptr v = NULL then .fault (.memory_error "Can't store NULL pointer")
      else
        match S1 with
        | [] => .fault .internal
        | v2 :: rest =>
          .next { s with pc := s.pc + 1, S := rest,
                         H := { s.H with bytes := write64 s.H.bytes (val2ptr v) (to_uint64 (val2ptr v2)) } }
  | some .CMLOAD =>
    match s.S with
    | [] => .fault .internal
    | v :: rest =>
      if val2ptr v = NULL then .fault (.memory_error "Can't store NULL pointer")
      else
        .next { s with pc := s.pc + 1,
                       S := int2val (to_int32 (read32 s.H.bytes (val2ptr v))) :: rest }
  | some .CMSTORE =>
    match s.S with
    | [] => .fault .internal
    | v :: S1 =>
      if val2ptr v = NULL then .fault (.memory_error "Can't store NULL pointer")
      else
        match S1 with
        | [] => .fault .internal
        | vi :: rest =>
          .next { s with pc := s.pc + 1, S := rest,
                         H := { s.H with bytes := write32 s.H.bytes (val2ptr v)
                                                    (to_uint32 (val2int vi) &&& 0x7f) } }
  | some .AADDF =>
    match s.S with
    | [] => .fault .internal
    | v :: rest =>
      if val2ptr v = NULL then .fault (.memory_error "Can't store NULL pointer")
      else
        match s.P[s.pc + 1]? with
        | none => .fault .undefined
        | some b => .next { s with pc := s.pc + 2, S := ptr2val (val2ptr v + 4 * (b : Int)) :: rest }
  | some .NEWARRAY =>
    match s.S with
    | [] => .fault .internal
    | v :: rest =>
      let i := val2int v
      if i < 0 then .fault (.memory_error "Can't allocate array of negative size.")
      else if i = 0 then .next { s with pc := s.pc + 2, S := ptr2val NULL :: rest }
      else
        match s.P[s.pc + 1]? with
        | none => .fault .undefined
        | some b =>
          let (arr, H1) := xmalloc s.H sizeof_c0_array
          let (elems, H2) := xcalloc H1 i.toNat b
          let H3 := H2.set_array arr { count := to_uint32 i, elt_size := b, elems := elems }
          .next { s with pc := s.pc + 2, S := ptr2val arr :: rest, H := H3 }
  | some .ARRAYLENGTH =>
    match s.S with
    | [] => .fault .internal
    | v :: rest =>
      if val2ptr v = NULL then .next { s with pc := s.pc + 1, S := int2val 0 :: rest }
      else
        match s.H.arrays (val2ptr v) with
        | none => .fault .undefined
        | some arr => .next { s with pc := s.pc + 1, S := int2val (to_int32 arr.count) :: rest }
  | some .AADDS =>
    match s.S with
    | vi :: va :: rest =>
      let i := val2int vi
      if val2ptr va = NULL then .fault (.memory_error "Can't acess a NULL pointer")
      else
        match s.H.arrays (val2ptr va) with
        | none => .fault .undefined
        | some arr =>
          if i < 0 ∨ arr.count < to_uint32 i then .fault (.memory_error "Index out of bounds")
          else
            let size := to_int32 arr.elt_size
            .next { s with pc := s.pc + 1,
                           S := ptr2val (arr.elems + to_int32 (size * i)) :: rest }
    | _ => .fault .internal

/-! ## The loop -/

/-- The loop `while (true)` cut off after `fuel` iterations: `next s` when the
budget ran out in state `s`, otherwise the way the run ended. -/
def run (bc0 : bc0_file) (native_function_table : List native_fn) : Nat → State → Result
  | 0, s => .next s
  | fuel + 1, s =>
    match step bc0 native_function_table s with
    | .next s1 => run bc0 native_function_table fuel s1
    | r => r

/-- The variables of `execute` before the first iteration: the code of function
0, `pc = 0`, zeroed locals, empty operand and call stacks. -/
def initial (bc0 : bc0_file) (H : Heap) : Option State :=
  match bc0.function_pool[0]? with
  | none => none
  | some f =>
    some { S := [], P := f.code, pc := 0, V := List.replicate f.num_vars (0 : c0_value),
           callStack := [], H := H }

/-- The function `execute(bc0)`, started on the heap `H` and cut off after `fuel`
instructions. -/
def execute (bc0 : bc0_file) (native_function_table : List native_fn) (H : Heap) (fuel : Nat) :
    Result :=
  match initial bc0 H with
  | none => .fault .undefined
  | some s => run bc0 native_function_table fuel s

/-! ## Auxiliary definitions for the statements -/

/-- The run has ended: the result is a returned value or a fault. -/
def Result.final : Result → Bool
  | .next _ => false
  | _ => true

/-- The heap with no block allocated. -/
def Heap.empty : Heap := { bytes := fun _ => 0, arrays := fun _ => none, brk := 0 }

/-- A program with the single function `code` (no arguments, no locals). -/
def single (code : List ubyte) : bc0_file :=
  { int_pool := [], string_pool := 0,
    function_pool := [{ num_args := 0, num_vars := 0, code := code }], native_pool := [] }

/-- A state of the entry frame: operand stack `S`, code `P`, position `pc`, no
locals, empty call stack, heap `H`. -/
def entry_state (S : List c0_value) (P : List ubyte) (pc : Nat) (H : Heap) : State :=
  { S := S, P := P, pc := pc, V := [], callStack := [], H := H }

/-- The byte that encodes the signed byte `x` in two's complement. -/
def to_ubyte (x : Int) : ubyte := (x % 256).toNat

/-- The two-function program: function 0 pushes `x` and `y` and calls function 1,
which returns the sum of its two arguments. -/
def call_program (x y : Int) : bc0_file :=
  { int_pool := [], string_pool := 0,
    function_pool :=
      [{ num_args := 0, num_vars := 0,
         code := [BIPUSH, to_ubyte x, BIPUSH, to_ubyte y, INVOKESTATIC, 0, 1, RETURN] },
       { num_args := 2, num_vars := 2, code := [VLOAD, 0, VLOAD, 1, IADD, RETURN] }],
    native_pool := [] }

/-- A program with 32769 functions; the last one, of index 32768, has one local. -/
def many_functions : bc0_file :=
  { int_pool := [], string_pool := 0,
    function_pool :=
      List.replicate 32768 { num_args := 0, num_vars := 0, code := [BIPUSH, 0, RETURN] } ++
        [{ num_args := 0, num_vars := 1, code := [BIPUSH, 1, RETURN] }],
    native_pool := [] }

/-- Code with a conditional `op` at position 3 whose operand bytes `0xFF 0xFD`
encode the offset -3, that is a branch back to position 0. -/
def backward_code (op : ubyte) : List ubyte := [NOP, NOP, NOP, op, 0xFF, 0xFD, RETURN]

/-- The heap after `NEWARRAY` has allocated an array of `n` elements of size `b` on
the heap `h`: the header block, then the zeroed element block, then the header
fields. -/
def newarray_heap (h : Heap) (n : Int) (b : ubyte) : Heap :=
  (xcalloc (xmalloc h sizeof_c0_array).2 n.toNat b).2.set_array (xmalloc h sizeof_c0_array).1
    { count := to_uint32 n, elt_size := b,
      elems := (xcalloc (xmalloc h sizeof_c0_array).2 n.toNat b).1 }

/-- The program that allocates an array of 3 elements of size 4 and indexes it at 3. -/
def index_eq_count_program : bc0_file :=
  single [BIPUSH, 3, NEWARRAY, 4, BIPUSH, 3, AADDS, RETURN]

/-- The program that allocates an array of `2^30` elements of size 4 and indexes it
at `2^29`. -/
def large_index_program : bc0_file :=
  { int_pool := [1073741824, 536870912], string_pool := 0,
    function_pool :=
      [{ num_args := 0, num_vars := 0,
         code := [ILDC, 0, 0, NEWARRAY, 4, ILDC, 0, 1, AADDS, RETURN] }],
    native_pool := [] }

/-- An 8-byte little-endian read `*(uint64_t*)a`. -/
def read64 (m : Int → Nat) (a : Int) : Nat := read32 m a + 4294967296 * read32 m (a + 4)

/-- The program that allocates two 8-byte cells `a` and `b`, stores `b` in the cell
`a` (AMSTORE pops the address `a` first, so `a` is swapped to the top) and loads
from `a` with AMLOAD. -/
def amload_program : bc0_file := single [NEW, 8, DUP, NEW, 8, SWAP, AMSTORE, AMLOAD, RETURN]

/-- The heap of `amload_program` after its AMSTORE: two 8-byte blocks at the
addresses 1 and 10, the first holding the address 10. -/
def amload_heap : Heap :=
  { (xcalloc (xcalloc Heap.empty 1 8).2 1 8).2 with
      bytes := write64 (xcalloc (xcalloc Heap.empty 1 8).2 1 8).2.bytes 1 10 }

/-- The program that allocates a 4-byte cell, stores the integer `x` in it with
IMSTORE (which pops the address first, so the address is swapped to the top) and
loads from the cell with CMLOAD. -/
def cmload_program (x : Int) : bc0_file :=
  { int_pool := [x], string_pool := 0,
    function_pool :=
      [{ num_args := 0, num_vars := 0,
         code := [NEW, 4, DUP, ILDC, 0, 0, SWAP, IMSTORE, CMLOAD, RETURN] }],
    native_pool := [] }

/-- The heap with one 4-byte block at address 1 that holds the 32-bit pattern `x`. -/
def cell_heap (x : Nat) : Heap :=
  { (xcalloc Heap.empty 1 4).2 with bytes := write32 (xcalloc Heap.empty 1 4).2.bytes 1 x }

/-- The program that allocates a 4-byte cell, stores 257 in it (bytes 1, 1, 0, 0)
and then stores 65 through the same address with CMSTORE. -/
def cmstore_program : bc0_file :=
  { int_pool := [257], string_pool := 0,
    function_pool :=
      [{ num_args := 0, num_vars := 0,
         code := [NEW, 4, DUP, DUP, ILDC, 0, 0, SWAP, IMSTORE, BIPUSH, 65, SWAP, CMSTORE,
                  RETURN] }],
    native_pool := [] }

/-- The opcodes that have a handler in the `switch` of `execute`. -/
def implemented : List ubyte :=
  [POP, DUP, SWAP, RETURN, IADD, ISUB, IMUL, IDIV, IREM, IAND, IOR, IXOR, ISHR, ISHL,
   BIPUSH, ILDC, ALDC, ACONST_NULL, VLOAD, VSTORE, ATHROW, ASSERT, NOP,
   IF_CMPEQ, IF_CMPNE, IF_ICMPLT, IF_ICMPGE, IF_ICMPGT, IF_ICMPLE, GOTO,
   INVOKESTATIC, INVOKENATIVE, NEW, IMLOAD, IMSTORE, AMLOAD, AMSTORE, CMLOAD, CMSTORE, AADDF,
   NEWARRAY, ARRAYLENGTH, AADDS]

/-! ## Basic facts -/

theorem to_int32_of_in_int32 {x : Int} (h : in_int32 x) : to_int32 x = x := by
  unfold in_int32 at h; unfold to_int32; omega

theorem in_int32_to_int32 (x : Int) : in_int32 (to_int32 x) := by
  unfold in_int32 to_int32; omega

theorem to_int32_congr (x : Int) : (to_int32 x - x) % 4294967296 = 0 := by
  unfold to_int32; omega

theorem val2int_int2val {x : Int} (h : in_int32 x) : val2int (int2val x) = x := by
  unfold val2int int2val; exact to_int32_of_in_int32 h

theorem int_min_eq : to_int32 0x80000000 = -2147483648 := by decide

theorem run_succ (bc0 : bc0_file) (nft : List native_fn) (n : Nat) (s : State) :
    run bc0 nft (n + 1) s =
      match step bc0 nft s with
      | .next s1 => run bc0 nft n s1
      | r => r := rfl

/-- A run that has ended within `n` steps gives the same result with any larger budget. -/
theorem run_mono (bc0 : bc0_file) (nft : List native_fn) {n m : Nat} {s : State} {r : Result}
    (hr : r.final = true) (hnm : n ≤ m) (h : run bc0 nft n s = r) : run bc0 nft m s = r := by
  induction n generalizing m s with
  | zero => subst h; simp [run, Result.final] at hr
  | succ n ih =>
    obtain ⟨m, rfl⟩ : ∃ k, m = k + 1 := ⟨m - 1, by omega⟩
    rw [run_succ] at h ⊢
    cases hs : step bc0 nft s with
    | next s1 => rw [hs] at h; exact ih (by omega) h
    | done v => rw [hs] at h; exact h
    | fault f => rw [hs] at h; exact h

theorem execute_mono (bc0 : bc0_file) (nft : List native_fn) (H : Heap) {n m : Nat} {r : Result}
    (hr : r.final = true) (hnm : n ≤ m) (h : execute bc0 nft H n = r) :
    execute bc0 nft H m = r := by
  unfold execute at h ⊢
  cases hi : initial bc0 H with
  | none => rw [hi] at h; exact h
  | some s => rw [hi] at h; exact run_mono bc0 nft hr hnm h

/-! ## The dispatch -/

theorem decode_IADD : decode IADD = some .IADD := by decide
theorem decode_ISUB : decode ISUB = some .ISUB := by decide
theorem decode_IMUL : decode IMUL = some .IMUL := by decide
theorem decode_IDIV : decode IDIV = some .IDIV := by decide
theorem decode_IREM : decode IREM = some .IREM := by decide
theorem decode_ISHR : decode ISHR = some .ISHR := by decide
theorem decode_ISHL : decode ISHL = some .ISHL := by decide
theorem decode_BIPUSH : decode BIPUSH = some .BIPUSH := by decide
theorem decode_RETURN : decode RETURN = some .RETURN := by decide
theorem decode_VLOAD : decode VLOAD = some .VLOAD := by decide
theorem decode_INVOKESTATIC : decode INVOKESTATIC = some .INVOKESTATIC := by decide
theorem decode_IF_CMPEQ : decode IF_CMPEQ = some .IF_CMPEQ := by decide
theorem decode_IF_CMPNE : decode IF_CMPNE = some .IF_CMPNE := by decide
theorem decode_IF_ICMPLT : decode IF_ICMPLT = some .IF_ICMPLT := by decide
theorem decode_IF_ICMPGE : decode IF_ICMPGE = some .IF_ICMPGE := by decide
theorem decode_IF_ICMPGT : decode IF_ICMPGT = some .IF_ICMPGT := by decide
theorem decode_IF_ICMPLE : decode IF_ICMPLE = some .IF_ICMPLE := by decide
theorem decode_NEWARRAY : decode NEWARRAY = some .NEWARRAY := by decide
theorem decode_AADDS : decode AADDS = some .AADDS := by decide

/-! ## Single instructions -/

theorem iadd_step (bc0 : bc0_file) (nft : List native_fn) (s : State) (v1 v2 : c0_value)
    (rest : List c0_value) (hop : s.P[s.pc]? = some IADD) (hS : s.S = v2 :: v1 :: rest) :
    step bc0 nft s =
      .next { s with pc := s.pc + 1, S := int2val (to_int32 (val2int v1 + val2int v2)) :: rest } := by
  simp only [step, hop, decode_IADD, hS]

theorem isub_step (bc0 : bc0_file) (nft : List native_fn) (s : State) (v1 v2 : c0_value)
    (rest : List c0_value) (hop : s.P[s.pc]? = some ISUB) (hS : s.S = v2 :: v1 :: rest) :
    step bc0 nft s =
      .next { s with pc := s.pc + 1, S := int2val (to_int32 (val2int v1 - val2int v2)) :: rest } := by
  simp only [step, hop, decode_ISUB, hS]

theorem imul_step (bc0 : bc0_file) (nft : List native_fn) (s : State) (v1 v2 : c0_value)
    (rest : List c0_value) (hop : s.P[s.pc]? = some IMUL) (hS : s.S = v2 :: v1 :: rest) :
    step bc0 nft s =
      .next { s with pc := s.pc + 1, S := int2val (to_int32 (val2int v1 * val2int v2)) :: rest } := by
  simp only [step, hop, decode_IMUL, hS]

theorem idiv_step (bc0 : bc0_file) (nft : List native_fn) (s : State) (v1 v2 : c0_value)
    (rest : List c0_value) (hop : s.P[s.pc]? = some IDIV) (hS : s.S = v2 :: v1 :: rest) :
    step bc0 nft s =
      if val2int v2 = 0 then .fault (.arith_error "Division by 0")
      else if val2int v1 = -2147483648 ∧ val2int v2 = -1 then
        .fault (.arith_error "Dividing int_min by -1")
      else
        .next { s with pc := s.pc + 1,
                       S := int2val (to_int32 (Int.tdiv (val2int v1) (val2int v2))) :: rest } := by
  simp only [step, hop, decode_IDIV, hS, int_min_eq]

theorem irem_step (bc0 : bc0_file) (nft : List native_fn) (s : State) (v1 v2 : c0_value)
    (rest : List c0_value) (hop : s.P[s.pc]? = some IREM) (hS : s.S = v2 :: v1 :: rest) :
    step bc0 nft s =
      if val2int v2 = 0 then .fault (.arith_error "Division by 0")
      else if val2int v1 = -2147483648 ∧ val2int v2 = -1 then
        .fault (.arith_error "Dividing int_min by -1")
      else
        .next { s with pc := s.pc + 1,
                       S := int2val (to_int32 (Int.tmod (val2int v1) (val2int v2))) :: rest } := by
  simp only [step, hop, decode_IREM, hS, int_min_eq]

theorem bipush_step (bc0 : bc0_file) (nft : List native_fn) (s : State) (b : ubyte)
    (hop : s.P[s.pc]? = some BIPUSH) (hb : s.P[s.pc + 1]? = some b) :
    step bc0 nft s =
      .next { s with pc := s.pc + 2, S := int2val (to_int32 (to_int8 b)) :: s.S } := by
  simp only [step, hop, decode_BIPUSH, hb]

theorem return_step_done (bc0 : bc0_file) (nft : List native_fn) (s : State) (r : c0_value)
    (hop : s.P[s.pc]? = some RETURN) (hS : s.S = [r]) (hcs : s.callStack = []) :
    step bc0 nft s = .done (val2int r) := by
  simp [step, hop, decode_RETURN, hS, hcs]

theorem return_step_frame (bc0 : bc0_file) (nft : List native_fn) (s : State) (r : c0_value)
    (fr : frame) (cs : List frame)
    (hop : s.P[s.pc]? = some RETURN) (hS : s.S = [r]) (hcs : s.callStack = fr :: cs) :
    step bc0 nft s =
      .next { s with S := r :: fr.S, P := fr.P, pc := fr.pc, V := fr.V, callStack := cs } := by
  simp [step, hop, decode_RETURN, hS, hcs]

/-! ## Arithmetic -/

/-- C1: with `a` pushed first and `b` on top, one step on IADD, ISUB, IMUL raises no
error, replaces the two operands by the 32-bit wraparound of `a+b`, `a-b`, `a*b` (the
value in the `int32_t` range congruent to it modulo `2^32`), keeps the rest of the
stack and adds 1 to `pc`; and `BIPUSH 7; BIPUSH 3; IADD; RETURN` returns 10. -/
theorem C1_arith_wraparound (bc0 : bc0_file) (nft : List native_fn) (s : State) (a b : Int)
    (rest : List c0_value) (ha : in_int32 a) (hb : in_int32 b)
    (hS : s.S = int2val b :: int2val a :: rest) :
    (s.P[s.pc]? = some IADD →
      ∃ r : Int, in_int32 r ∧ (r - (a + b)) % 4294967296 = 0 ∧
        step bc0 nft s = .next { s with pc := s.pc + 1, S := int2val r :: rest }) ∧
    (s.P[s.pc]? = some ISUB →
      ∃ r : Int, in_int32 r ∧ (r - (a - b)) % 4294967296 = 0 ∧
        step bc0 nft s = .next { s with pc := s.pc + 1, S := int2val r :: rest }) ∧
    (s.P[s.pc]? = some IMUL →
      ∃ r : Int, in_int32 r ∧ (r - a * b) % 4294967296 = 0 ∧
        step bc0 nft s = .next { s with pc := s.pc + 1, S := int2val r :: rest }) ∧
    (∀ (H : Heap) (fuel : Nat), 4 ≤ fuel →
      execute (single [BIPUSH, 7, BIPUSH, 3, IADD, RETURN]) nft H fuel = .done 10) := by
  refine ⟨fun hop => ⟨to_int32 (a + b), in_int32_to_int32 _, to_int32_congr _, ?_⟩,
          fun hop => ⟨to_int32 (a - b), in_int32_to_int32 _, to_int32_congr _, ?_⟩,
          fun hop => ⟨to_int32 (a * b), in_int32_to_int32 _, to_int32_congr _, ?_⟩, ?_⟩
  · rw [iadd_step bc0 nft s _ _ rest hop hS, val2int_int2val ha, val2int_int2val hb]
  · rw [isub_step bc0 nft s _ _ rest hop hS, val2int_int2val ha, val2int_int2val hb]
  · rw [imul_step bc0 nft s _ _ rest hop hS, val2int_int2val ha, val2int_int2val hb]
  · intro H fuel hfuel
    refine execute_mono _ nft H (n := 4) (by rfl) hfuel ?_
    simp only [execute, initial, single, List.getElem?_cons_zero, List.replicate]
    rw [run_succ, bipush_step _ _ _ 7 (by rfl) (by rfl)]
    simp only []
    rw [run_succ, bipush_step _ _ _ 3 (by rfl) (by rfl)]
    simp only []
    rw [run_succ, iadd_step _ _ _ _ _ _ (by rfl) (by rfl)]
    simp only []
    rw [run_succ, return_step_done _ _ _ _ (by rfl) (by rfl) (by rfl)]
    simp [val2int, int2val, to_int32, to_int8]

/-- Witness of C1: IADD on the largest `int32_t` and 1 wraps around. -/
theorem C1_arith_wraparound_witness :
    ∃ r : Int, in_int32 r ∧ (r - (2147483647 + 1)) % 4294967296 = 0 ∧
      step (single [IADD]) [] (entry_state [int2val 1, int2val 2147483647] [IADD] 0 Heap.empty) =
        .next (entry_state [int2val r] [IADD] 1 Heap.empty) :=
  (C1_arith_wraparound (single [IADD]) []
    (entry_state [int2val 1, int2val 2147483647] [IADD] 0 Heap.empty)
    2147483647 1 [] (by decide) (by decide) rfl).1 rfl

/-- C2: with the dividend `i1` pushed first and the divisor `i2` on top, one step on
IDIV or IREM raises an arithmetic error exactly when `i2 = 0` or (`i1 = -2^31` and
`i2 = -1`); otherwise it raises no error and replaces the two operands by one
result; and `BIPUSH 5; BIPUSH 0; IDIV; RETURN` ends in an arithmetic error. -/
theorem C2_div_rem_traps (bc0 : bc0_file) (nft : List native_fn) (s : State) (i1 i2 : Int)
    (rest : List c0_value) (h1 : in_int32 i1) (h2 : in_int32 i2)
    (hS : s.S = int2val i2 :: int2val i1 :: rest)
    (hop : s.P[s.pc]? = some IDIV ∨ s.P[s.pc]? = some IREM) :
    ((∃ msg, step bc0 nft s = .fault (.arith_error msg)) ↔
      (i2 = 0 ∨ (i1 = -2147483648 ∧ i2 = -1))) ∧
    (¬ (i2 = 0 ∨ (i1 = -2147483648 ∧ i2 = -1)) →
      ∃ r : Int, in_int32 r ∧
        step bc0 nft s = .next { s with pc := s.pc + 1, S := int2val r :: rest }) ∧
    (∀ (H : Heap) (fuel : Nat), 3 ≤ fuel →
      execute (single [BIPUSH, 5, BIPUSH, 0, IDIV, RETURN]) nft H fuel =
        .fault (.arith_error "Division by 0")) := by
  have hstep : ∃ q : Int, step bc0 nft s =
      if i2 = 0 then .fault (.arith_error "Division by 0")
      else if i1 = -2147483648 ∧ i2 = -1 then .fault (.arith_error "Dividing int_min by -1")
      else .next { s with pc := s.pc + 1, S := int2val (to_int32 q) :: rest } := by
    rcases hop with hop | hop
    · exact ⟨_, by rw [idiv_step bc0 nft s _ _ rest hop hS, val2int_int2val h1,
                       val2int_int2val h2]⟩
    · exact ⟨_, by rw [irem_step bc0 nft s _ _ rest hop hS, val2int_int2val h1,
                       val2int_int2val h2]⟩
  obtain ⟨q, hq⟩ := hstep
  refine ⟨?_, ?_, ?_⟩
  · rw [hq]
    by_cases hz : i2 = 0
    · simp [hz]
    · by_cases hm : i1 = -2147483648 ∧ i2 = -1
      · simp [hz, hm]
      · simp [hz, hm]
  · intro hn
    have hz : ¬ i2 = 0 := fun h => hn (Or.inl h)
    have hm : ¬ (i1 = -2147483648 ∧ i2 = -1) := fun h => hn (Or.inr h)
    exact ⟨to_int32 q, in_int32_to_int32 _, by rw [hq, if_neg hz, if_neg hm]⟩
  · intro H fuel hfuel
    refine execute_mono _ nft H (n := 3) (by rfl) hfuel ?_
    simp only [execute, initial, single, List.getElem?_cons_zero, List.replicate]
    rw [run_succ, bipush_step _ _ _ 5 (by rfl) (by rfl)]
    simp only []
    rw [run_succ, bipush_step _ _ _ 0 (by rfl) (by rfl)]
    simp only []
    rw [run_succ, idiv_step _ _ _ _ _ _ (by rfl) (by rfl)]
    simp [val2int, int2val, to_int32, to_int8]

/-- Witness of C2: IDIV of `-2^31` by `-1` raises an arithmetic error. -/
theorem C2_div_rem_traps_witness :
    ∃ msg, step (single [IDIV]) []
        (entry_state [int2val (-1), int2val (-2147483648)] [IDIV] 0 Heap.empty) =
      .fault (.arith_error msg) :=
  (C2_div_rem_traps (single [IDIV]) []
    (entry_state [int2val (-1), int2val (-2147483648)] [IDIV] 0 Heap.empty)
    (-2147483648) (-1) [] (by decide) (by decide) rfl (Or.inl rfl)).1.2 (Or.inr ⟨rfl, rfl⟩)

/-! ## Calls -/

theorem pop_args_append (args rest V : List c0_value) (h : args.length ≤ V.length) :
    pop_args args.length (args ++ rest) V = .ok (args.reverse ++ V.drop args.length, rest) := by
  induction args generalizing V with
  | nil => simp [pop_args]
  | cons v as ih =>
    have hlt : as.length < V.length := by simpa using h
    have hset : as.length < (V.set as.length v).length := by simpa using hlt
    simp only [List.length_cons, List.cons_append, pop_args, hlt, if_true]
    rw [ih (V.set as.length v) (by simpa using Nat.le_of_lt hlt)]
    rw [List.drop_eq_getElem_cons hset, List.getElem_set_self,
      List.drop_set_of_lt v V (Nat.lt_succ_self _)]
    simp

theorem invokestatic_step (bc0 : bc0_file) (nft : List native_fn) (s : State) (b1 b2 : ubyte)
    (g : function_info) (args rest : List c0_value)
    (hop : s.P[s.pc]? = some INVOKESTATIC) (hb1 : s.P[s.pc + 1]? = some b1)
    (hb2 : s.P[s.pc + 2]? = some b2)
    (hg : index? bc0.function_pool (static_index b1 b2) = some g)
    (hlen : args.length = g.num_args) (hle : g.num_args ≤ g.num_vars)
    (hS : s.S = args ++ rest) :
    step bc0 nft s =
      .next { s with
                P := g.code
                pc := 0
                V := args.reverse ++ List.replicate (g.num_vars - g.num_args) (0 : c0_value)
                callStack := { P := s.P, pc := s.pc + 3, V := s.V, S := rest } :: s.callStack
                S := [] } := by
  have hpop := pop_args_append args rest (List.replicate g.num_vars (0 : c0_value))
    (by simp [hlen, hle])
  rw [hlen] at hpop
  simp only [step, hop, decode_INVOKESTATIC, hb1, hb2, hg, hS, hpop, List.drop_replicate]

theorem invokestatic_step_negative (bc0 : bc0_file) (nft : List native_fn) (s : State)
    (b1 b2 : ubyte)
    (hop : s.P[s.pc]? = some INVOKESTATIC) (hb1 : s.P[s.pc + 1]? = some b1)
    (hb2 : s.P[s.pc + 2]? = some b2) (hneg : static_index b1 b2 < 0) :
    step bc0 nft s = .fault .undefined := by
  simp only [step, hop, decode_INVOKESTATIC, hb1, hb2, index?, if_pos hneg]

/-- C3, at the function index 32768: the pool holds a descriptor there, and the
step on `INVOKESTATIC 0x80 0x00` reads `function_pool[-32768]` instead of
entering it. -/
theorem C3_invokestatic_index_32768 :
    many_functions.function_pool[32768]? =
        some { num_args := 0, num_vars := 1, code := [BIPUSH, 1, RETURN] } ∧
      static_index 0x80 0x00 = -32768 ∧
      step many_functions [] (entry_state [] [INVOKESTATIC, 0x80, 0x00, RETURN] 0 Heap.empty) =
        .fault .undefined := by
  refine ⟨?_, by decide, ?_⟩
  · show (List.replicate 32768 _ ++ [_])[32768]? = _
    rw [List.getElem?_append_right (by rw [List.length_replicate]), List.length_replicate,
      Nat.sub_self, List.getElem?_cons_zero]
  · exact invokestatic_step_negative _ _ _ 0x80 0x00 (by rfl) (by rfl) (by rfl) (by decide)


theorem vload_step (bc0 : bc0_file) (nft : List native_fn) (s : State) (b : ubyte) (v : c0_value)
    (hop : s.P[s.pc]? = some VLOAD) (hb : s.P[s.pc + 1]? = some b) (hv : s.V[b]? = some v) :
    step bc0 nft s = .next { s with pc := s.pc + 2, S := v :: s.S } := by
  simp only [step, hop, decode_VLOAD, hb, hv]

theorem bipush_value {x : Int} (hx : -128 ≤ x ∧ x ≤ 127) :
    int2val (to_int32 (to_int8 ((to_ubyte x : Nat) : Int))) = x := by
  have h : (((x % 256).toNat : Nat) : Int) = x % 256 :=
    Int.toNat_of_nonneg (Int.emod_nonneg x (by decide))
  show to_int32 (to_int8 ((to_ubyte x : Nat) : Int)) = x
  unfold to_int32 to_int8 to_ubyte
  rw [h]; omega

theorem static_index_0_1 : static_index 0 1 = 1 := by decide

/-- One more instruction at the end of a run. -/
theorem run_snoc (bc0 : bc0_file) (nft : List native_fn) (n : Nat) (s : State) :
    run bc0 nft (n + 1) s =
      match run bc0 nft n s with
      | .next t => step bc0 nft t
      | r => r := by
  induction n generalizing s with
  | zero =>
    rw [run_succ]
    simp only [run]
    cases step bc0 nft s <;> rfl
  | succ n ih =>
    rw [run_succ, run_succ]
    cases hs : step bc0 nft s with
    | next s1 => exact ih s1
    | done v => rfl
    | fault f => rfl

theorem execute_succ (bc0 : bc0_file) (nft : List native_fn) (H : Heap) (n : Nat) :
    execute bc0 nft H (n + 1) =
      match execute bc0 nft H n with
      | .next t => step bc0 nft t
      | r => r := by
  unfold execute
  cases initial bc0 H with
  | none => rfl
  | some s => exact run_snoc bc0 nft n s

/-- C4: INVOKESTATIC executed at position `pc` with operand stack `args ++ rest`
pushes one entry on the call stack; a RETURN executed with that entry on top and
the operand stack `[r]` makes the active frame the caller's code and locals at
`pc + 3` with operand stack `r :: rest` and the call stack as before the call; a
RETURN executed with an empty call stack ends `execute` with the integer `r`. -/
theorem C4_call_return (bc0 : bc0_file) (nft : List native_fn) (s : State) (b1 b2 : ubyte)
    (g : function_info) (args rest : List c0_value)
    (hop : s.P[s.pc]? = some INVOKESTATIC) (hb1 : s.P[s.pc + 1]? = some b1)
    (hb2 : s.P[s.pc + 2]? = some b2)
    (hg : index? bc0.function_pool (static_index b1 b2) = some g)
    (hlen : args.length = g.num_args) (hle : g.num_args ≤ g.num_vars)
    (hS : s.S = args ++ rest) :
    ∃ entry : frame,
      (∃ s1, step bc0 nft s = .next s1 ∧ s1.callStack = entry :: s.callStack) ∧
      (∀ (t : State) (r : c0_value), t.callStack = entry :: s.callStack →
        t.P[t.pc]? = some RETURN → t.S = [r] →
        step bc0 nft t =
          .next { t with P := s.P, pc := s.pc + 3, V := s.V, S := r :: rest,
                         callStack := s.callStack }) ∧
      (∀ (t : State) (r : c0_value), t.callStack = [] →
        t.P[t.pc]? = some RETURN → t.S = [r] → step bc0 nft t = .done (val2int r)) := by
  refine ⟨{ P := s.P, pc := s.pc + 3, V := s.V, S := rest },
    ⟨_, invokestatic_step bc0 nft s b1 b2 g args rest hop hb1 hb2 hg hlen hle hS, rfl⟩, ?_, ?_⟩
  · intro t r hcs hop hS
    rw [return_step_frame bc0 nft t r _ _ hop hS hcs]
  · intro t r hcs hop hS
    exact return_step_done bc0 nft t r hop hS hcs

/-- Witness of C4: the call of the two-function program with arguments 4 and 6. -/
theorem C4_call_return_witness :
    ∃ (entry : frame) (s1 : State),
      step (call_program 4 6) []
          (entry_state [6, 4] [BIPUSH, 4, BIPUSH, 6, INVOKESTATIC, 0, 1, RETURN] 4 Heap.empty) =
        .next s1 ∧ s1.callStack = [entry] :=
  let ⟨entry, ⟨s1, h⟩, _⟩ :=
    C4_call_return (call_program 4 6) []
      (entry_state [6, 4] [BIPUSH, 4, BIPUSH, 6, INVOKESTATIC, 0, 1, RETURN] 4 Heap.empty)
      0 1 { num_args := 2, num_vars := 2, code := [VLOAD, 0, VLOAD, 1, IADD, RETURN] }
      [6, 4] [] rfl rfl rfl (by decide) rfl (by decide) rfl
  ⟨entry, s1, h⟩

/-- C9: for signed bytes `x`, `y` the two-function program returns `x + y` (with
every budget of at least 8 instructions), and the outermost RETURN, reached after
7 instructions, executes with an empty call stack. -/
theorem C9_call_program_adds (x y : Int) (hx : -128 ≤ x ∧ x ≤ 127) (hy : -128 ≤ y ∧ y ≤ 127)
    (nft : List native_fn) (H : Heap) :
    (∀ fuel : Nat, 8 ≤ fuel → execute (call_program x y) nft H fuel = .done (x + y)) ∧
    (∃ t : State, execute (call_program x y) nft H 7 = .next t ∧ t.callStack = [] ∧
      t.P[t.pc]? = some RETURN ∧ step (call_program x y) nft t = .done (x + y)) := by
  have hsum : val2int (int2val (to_int32 (val2int x + val2int y))) = x + y := by
    unfold val2int int2val to_int32; omega
  have h7 : execute (call_program x y) nft H 7 =
      .next { S := [int2val (to_int32 (val2int x + val2int y))],
              P := [BIPUSH, to_ubyte x, BIPUSH, to_ubyte y, INVOKESTATIC, 0, 1, RETURN],
              pc := 7, V := [], callStack := [], H := H } := by
    simp only [execute, initial, call_program, List.getElem?_cons_zero, List.replicate]
    rw [run_succ, bipush_step _ _ _ (to_ubyte x) (by rfl) (by rfl), bipush_value hx]
    simp only []
    rw [run_succ, bipush_step _ _ _ (to_ubyte y) (by rfl) (by rfl), bipush_value hy]
    simp only []
    rw [run_succ, invokestatic_step _ _ _ 0 1
      { num_args := 2, num_vars := 2, code := [VLOAD, 0, VLOAD, 1, IADD, RETURN] }
      [y, x] [] (by rfl) (by rfl) (by rfl) (by rw [static_index_0_1]; rfl) (by rfl) (by decide)
      (by rfl)]
    simp only [List.reverse_cons, List.reverse_nil, List.nil_append, List.cons_append,
      Nat.sub_self, List.replicate, List.append_nil]
    rw [run_succ, vload_step _ _ _ 0 x (by rfl) (by rfl) (by rfl)]
    simp only []
    rw [run_succ, vload_step _ _ _ 1 y (by rfl) (by rfl) (by rfl)]
    simp only []
    rw [run_succ, iadd_step _ _ _ x y [] (by rfl) (by rfl)]
    simp only []
    rw [run_succ, return_step_frame _ _ _ _ _ [] (by rfl) (by rfl) (by rfl)]
    simp only []
    rfl
  have hlast : step (call_program x y) nft
      { S := [int2val (to_int32 (val2int x + val2int y))],
        P := [BIPUSH, to_ubyte x, BIPUSH, to_ubyte y, INVOKESTATIC, 0, 1, RETURN],
        pc := 7, V := [], callStack := [], H := H } = .done (x + y) := by
    rw [return_step_done _ _ _ _ (by rfl) (by rfl) (by rfl), hsum]
  refine ⟨?_, _, h7, rfl, by rfl, hlast⟩
  intro fuel hfuel
  refine execute_mono _ nft H (n := 8) (by rfl) hfuel ?_
  rw [execute_succ, h7]
  exact hlast

/-! ## Conditional branches -/

theorem if_cmpeq_step (bc0 : bc0_file) (nft : List native_fn) (s : State) (b1 b2 : ubyte)
    (v1 v2 : c0_value) (rest : List c0_value)
    (hop : s.P[s.pc]? = some IF_CMPEQ) (hb1 : s.P[s.pc + 1]? = some b1)
    (hb2 : s.P[s.pc + 2]? = some b2) (hS : s.S = v2 :: v1 :: rest) :
    step bc0 nft s =
      if val_equal v1 v2 then .next { s with S := rest, pc := branch_target s.pc b1 b2 }
      else .next { s with S := rest, pc := s.pc + 3 } := by
  simp only [step, hop, decode_IF_CMPEQ, hb1, hb2, hS]

theorem if_cmpne_step (bc0 : bc0_file) (nft : List native_fn) (s : State) (b1 b2 : ubyte)
    (v1 v2 : c0_value) (rest : List c0_value)
    (hop : s.P[s.pc]? = some IF_CMPNE) (hb1 : s.P[s.pc + 1]? = some b1)
    (hb2 : s.P[s.pc + 2]? = some b2) (hS : s.S = v2 :: v1 :: rest) :
    step bc0 nft s =
      if !val_equal v1 v2 then .next { s with S := rest, pc := branch_target s.pc b1 b2 }
      else .next { s with S := rest, pc := s.pc + 3 } := by
  simp only [step, hop, decode_IF_CMPNE, hb1, hb2, hS]

theorem if_icmplt_step (bc0 : bc0_file) (nft : List native_fn) (s : State) (b1 b2 : ubyte)
    (v1 v2 : c0_value) (rest : List c0_value)
    (hop : s.P[s.pc]? = some IF_ICMPLT) (hb1 : s.P[s.pc + 1]? = some b1)
    (hb2 : s.P[s.pc + 2]? = some b2) (hS : s.S = v2 :: v1 :: rest) :
    step bc0 nft s =
      if val2int v1 < val2int v2 then
        .next { s with S := rest, pc := branch_target s.pc b1 b2 }
      else .next { s with S := rest, pc := s.pc + 3 } := by
  simp only [step, hop, decode_IF_ICMPLT, hb1, hb2, hS]

theorem if_icmpge_step (bc0 : bc0_file) (nft : List native_fn) (s : State) (b1 b2 : ubyte)
    (v1 v2 : c0_value) (rest : List c0_value)
    (hop : s.P[s.pc]? = some IF_ICMPGE) (hb1 : s.P[s.pc + 1]? = some b1)
    (hb2 : s.P[s.pc + 2]? = some b2) (hS : s.S = v2 :: v1 :: rest) :
    step bc0 nft s =
      if val2int v1 ≥ val2int v2 then
        .next { s with S := rest, pc := branch_target s.pc b1 b2 }
      else .next { s with S := rest, pc := s.pc + 3 } := by
  simp only [step, hop, decode_IF_ICMPGE, hb1, hb2, hS]

theorem if_icmpgt_step (bc0 : bc0_file) (nft : List native_fn) (s : State) (b1 b2 : ubyte)
    (v1 v2 : c0_value) (rest : List c0_value)
    (hop : s.P[s.pc]? = some IF_ICMPGT) (hb1 : s.P[s.pc + 1]? = some b1)
    (hb2 : s.P[s.pc + 2]? = some b2) (hS : s.S = v2 :: v1 :: rest) :
    step bc0 nft s =
      if val2int v1 > val2int v2 then
        .next { s with S := rest, pc := branch_target s.pc b1 b2 }
      else .next { s with S := rest, pc := s.pc + 3 } := by
  simp only [step, hop, decode_IF_ICMPGT, hb1, hb2, hS]

theorem if_icmple_step (bc0 : bc0_file) (nft : List native_fn) (s : State) (b1 b2 : ubyte)
    (v1 v2 : c0_value) (rest : List c0_value)
    (hop : s.P[s.pc]? = some IF_ICMPLE) (hb1 : s.P[s.pc + 1]? = some b1)
    (hb2 : s.P[s.pc + 2]? = some b2) (hS : s.S = v2 :: v1 :: rest) :
    step bc0 nft s =
      if val2int v1 ≤ val2int v2 then
        .next { s with S := rest, pc := branch_target s.pc b1 b2 }
      else .next { s with S := rest, pc := s.pc + 3 } := by
  simp only [step, hop, decode_IF_ICMPLE, hb1, hb2, hS]

theorem operand16_eq (b1 : Nat) {b2 : Nat} (h2 : b2 < 256) :
    operand16 b1 b2 = b1 * 256 + b2 := by
  unfold operand16
  rw [Nat.shiftLeft_eq, show (2 : Nat) ^ 8 = 256 from rfl, Nat.mul_comm b1 256]
  exact (Nat.mul_add_lt_is_or (i := 8) h2 b1).symm

/-- The target of a taken conditional is `pc` plus the operand read as an unsigned
16-bit number: the operand is never sign-extended. -/
theorem branch_target_eq (pc : Nat) {b1 b2 : Nat} (h1 : b1 < 256) (h2 : b2 < 256)
    (hpc : pc + 65536 < 18446744073709551616) :
    branch_target pc b1 b2 = pc + (b1 * 256 + b2) := by
  unfold branch_target
  rw [operand16_eq b1 h2]
  unfold to_size_t to_int32
  push_cast
  omega

/-- The offset of a conditional whose first operand byte is at least `0x80` is
negative, and the target of the taken branch lies 65536 positions after the
position the offset denotes. -/
theorem branch_target_backward (pc : Nat) {b1 b2 : Nat} (h1 : b1 < 256) (h2 : b2 < 256)
    (hneg : 128 ≤ b1) (hpc : pc + 65536 < 18446744073709551616) :
    to_int16 (operand16 b1 b2) < 0 ∧
      (branch_target pc b1 b2 : Int) = pc + to_int16 (operand16 b1 b2) + 65536 := by
  rw [branch_target_eq pc h1 h2 hpc, operand16_eq b1 h2]
  unfold to_int16
  push_cast
  omega

/-- C5, at the offset -3 (operand bytes `0xFF 0xFD`) of a conditional at position
3: for each of the six conditionals the taken branch sets `pc` to 65536, not to
`3 + (-3) = 0`. -/
theorem C5_backward_branch_target :
    (3 : Int) + to_int16 (operand16 0xFF 0xFD) = 0 ∧
    step (single (backward_code IF_CMPEQ)) []
        (entry_state [int2val 1, int2val 1] (backward_code IF_CMPEQ) 3 Heap.empty) =
      .next (entry_state [] (backward_code IF_CMPEQ) 65536 Heap.empty) ∧
    step (single (backward_code IF_CMPNE)) []
        (entry_state [int2val 2, int2val 1] (backward_code IF_CMPNE) 3 Heap.empty) =
      .next (entry_state [] (backward_code IF_CMPNE) 65536 Heap.empty) ∧
    step (single (backward_code IF_ICMPLT)) []
        (entry_state [int2val 2, int2val 1] (backward_code IF_ICMPLT) 3 Heap.empty) =
      .next (entry_state [] (backward_code IF_ICMPLT) 65536 Heap.empty) ∧
    step (single (backward_code IF_ICMPGE)) []
        (entry_state [int2val 1, int2val 1] (backward_code IF_ICMPGE) 3 Heap.empty) =
      .next (entry_state [] (backward_code IF_ICMPGE) 65536 Heap.empty) ∧
    step (single (backward_code IF_ICMPGT)) []
        (entry_state [int2val 1, int2val 2] (backward_code IF_ICMPGT) 3 Heap.empty) =
      .next (entry_state [] (backward_code IF_ICMPGT) 65536 Heap.empty) ∧
    step (single (backward_code IF_ICMPLE)) []
        (entry_state [int2val 1, int2val 1] (backward_code IF_ICMPLE) 3 Heap.empty) =
      .next (entry_state [] (backward_code IF_ICMPLE) 65536 Heap.empty) := by
  have ht : branch_target 3 0xFF 0xFD = 65536 := by
    rw [branch_target_eq 3 (by decide) (by decide) (by decide)]
  refine ⟨by decide, ?_, ?_, ?_, ?_, ?_, ?_⟩
  · rw [if_cmpeq_step _ _ _ 0xFF 0xFD _ _ [] (by rfl) (by rfl) (by rfl) (by rfl)]
    simp only [entry_state, ht]; rfl
  · rw [if_cmpne_step _ _ _ 0xFF 0xFD _ _ [] (by rfl) (by rfl) (by rfl) (by rfl)]
    simp only [entry_state, ht]; rfl
  · rw [if_icmplt_step _ _ _ 0xFF 0xFD _ _ [] (by rfl) (by rfl) (by rfl) (by rfl)]
    simp only [entry_state, ht]; rfl
  · rw [if_icmpge_step _ _ _ 0xFF 0xFD _ _ [] (by rfl) (by rfl) (by rfl) (by rfl)]
    simp only [entry_state, ht]; rfl
  · rw [if_icmpgt_step _ _ _ 0xFF 0xFD _ _ [] (by rfl) (by rfl) (by rfl) (by rfl)]
    simp only [entry_state, ht]; rfl
  · rw [if_icmple_step _ _ _ 0xFF 0xFD _ _ [] (by rfl) (by rfl) (by rfl) (by rfl)]
    simp only [entry_state, ht]; rfl

/-! ## Arrays -/

theorem decode_ILDC : decode ILDC = some .ILDC := by decide

theorem ildc_step (bc0 : bc0_file) (nft : List native_fn) (s : State) (b1 b2 : ubyte) (i : Int)
    (hop : s.P[s.pc]? = some ILDC) (hb1 : s.P[s.pc + 1]? = some b1)
    (hb2 : s.P[s.pc + 2]? = some b2)
    (hi : index? bc0.int_pool (operand16 b1 b2) = some i) :
    step bc0 nft s = .next { s with pc := s.pc + 3, S := int2val i :: s.S } := by
  simp only [step, hop, decode_ILDC, hb1, hb2, hi]

theorem newarray_step (bc0 : bc0_file) (nft : List native_fn) (s : State) (b : ubyte)
    (v : c0_value) (rest : List c0_value)
    (hop : s.P[s.pc]? = some NEWARRAY) (hb : s.P[s.pc + 1]? = some b) (hS : s.S = v :: rest) :
    step bc0 nft s =
      if val2int v < 0 then .fault (.memory_error "Can't allocate array of negative size.")
      else if val2int v = 0 then .next { s with pc := s.pc + 2, S := ptr2val NULL :: rest }
      else
        .next { s with pc := s.pc + 2,
                       S := ptr2val (xmalloc s.H sizeof_c0_array).1 :: rest,
                       H := newarray_heap s.H (val2int v) b } := by
  simp only [step, hop, decode_NEWARRAY, hb, hS]
  rfl

theorem aadds_step_null (bc0 : bc0_file) (nft : List native_fn) (s : State)
    (vi va : c0_value) (rest : List c0_value)
    (hop : s.P[s.pc]? = some AADDS) (hS : s.S = vi :: va :: rest) (hv : val2ptr va = NULL) :
    step bc0 nft s = .fault (.memory_error "Can't acess a NULL pointer") := by
  simp only [step, hop, decode_AADDS, hS, hv, if_true]

theorem aadds_step (bc0 : bc0_file) (nft : List native_fn) (s : State)
    (vi va : c0_value) (rest : List c0_value) (arr : c0_array)
    (hop : s.P[s.pc]? = some AADDS) (hS : s.S = vi :: va :: rest) (hv : val2ptr va ≠ NULL)
    (harr : s.H.arrays (val2ptr va) = some arr) :
    step bc0 nft s =
      if val2int vi < 0 ∨ arr.count < to_uint32 (val2int vi) then
        .fault (.memory_error "Index out of bounds")
      else
        .next { s with pc := s.pc + 1,
                       S := ptr2val (arr.elems + to_int32 (to_int32 arr.elt_size * val2int vi)) ::
                              rest } := by
  simp only [step, hop, decode_AADDS, hS, if_neg hv, harr]

theorem bipush_small {b : Nat} (h : b < 128) :
    int2val (to_int32 (to_int8 (b : Int))) = (b : Int) := by
  show to_int32 (to_int8 (b : Int)) = (b : Int)
  unfold to_int32 to_int8; omega

/-- C6, at an index equal to the count: after `BIPUSH 3; NEWARRAY 4; BIPUSH 3` the
operand stack holds the index 3 on top of a reference to an array block of count
3, and the step on AADDS raises no error: it pushes the address 12 bytes after the
start of the element storage. -/
theorem C6_aadds_index_eq_count :
    ∃ t : State, execute index_eq_count_program [] Heap.empty 3 = .next t ∧
      t.P[t.pc]? = some AADDS ∧ t.S = [int2val 3, ptr2val 1] ∧
      t.H.arrays 1 = some { count := 3, elt_size := 4, elems := 18 } ∧
      step index_eq_count_program [] t =
        .next { t with pc := t.pc + 1, S := [ptr2val (18 + 3 * 4)] } := by
  have h3 : execute index_eq_count_program [] Heap.empty 3 =
      .next { S := [int2val 3, ptr2val 1],
              P := [BIPUSH, 3, NEWARRAY, 4, BIPUSH, 3, AADDS, RETURN], pc := 6, V := [],
              callStack := [], H := newarray_heap Heap.empty 3 4 } := by
    simp only [execute, initial, index_eq_count_program, single, List.getElem?_cons_zero,
      List.replicate]
    rw [run_succ, bipush_step _ _ _ 3 (by rfl) (by rfl), bipush_small (by decide)]
    simp only [Nat.cast_ofNat]
    rw [run_succ, newarray_step _ _ _ 4 3 [] (by rfl) (by rfl) (by rfl),
      if_neg (by decide), if_neg (by decide)]
    simp only []
    rw [run_succ, bipush_step _ _ _ 3 (by rfl) (by rfl), bipush_small (by decide)]
    simp only [Nat.cast_ofNat]
    rfl
  refine ⟨_, h3, by rfl, rfl, by rfl, ?_⟩
  rw [aadds_step _ _ _ (int2val 3) (ptr2val 1) [] { count := 3, elt_size := 4, elems := 18 }
    (by rfl) (by rfl) (by decide) (by rfl), if_neg (by decide)]
  rfl

/-- C7, at a byte offset that does not fit 32 bits: after `ILDC 2^30; NEWARRAY 4;
ILDC 2^29` the operand stack holds the index `2^29` on top of a reference to an
array block of count `2^30` and element size 4, and the step on AADDS pushes the
element address minus `2^31`, not plus `2^29 * 4`: the product `size * i` is taken
in 32 bits. -/
theorem C7_aadds_offset_wraps :
    ∃ t : State, execute large_index_program [] Heap.empty 3 = .next t ∧
      t.P[t.pc]? = some AADDS ∧ t.S = [int2val 536870912, ptr2val 1] ∧
      t.H.arrays 1 = some { count := 1073741824, elt_size := 4, elems := 18 } ∧
      step large_index_program [] t =
        .next { t with pc := t.pc + 1, S := [ptr2val (18 - 2147483648)] } ∧
      (18 : Int) + 536870912 * 4 ≠ 18 - 2147483648 := by
  have h3 : execute large_index_program [] Heap.empty 3 =
      .next { S := [int2val 536870912, ptr2val 1],
              P := [ILDC, 0, 0, NEWARRAY, 4, ILDC, 0, 1, AADDS, RETURN], pc := 8, V := [],
              callStack := [], H := newarray_heap Heap.empty 1073741824 4 } := by
    simp only [execute, initial, large_index_program, List.getElem?_cons_zero, List.replicate]
    rw [run_succ, ildc_step _ _ _ 0 0 1073741824 (by rfl) (by rfl) (by rfl) (by decide)]
    simp only []
    rw [run_succ, newarray_step _ _ _ 4 _ [] (by rfl) (by rfl) (by rfl),
      if_neg (by decide), if_neg (by decide)]
    simp only []
    rw [run_succ, ildc_step _ _ _ 0 1 536870912 (by rfl) (by rfl) (by rfl) (by decide)]
    simp only []
    rfl
  refine ⟨_, h3, by rfl, rfl, by rfl, ?_, by decide⟩
  rw [aadds_step _ _ _ (int2val 536870912) (ptr2val 1) []
    { count := 1073741824, elt_size := 4, elems := 18 }
    (by rfl) (by rfl) (by decide) (by rfl), if_neg (by decide)]
  rfl

/-- The step on AADDS for an index within the count whose byte offset fits 32 bits:
the element address `elems + i * elt_size` is pushed. -/
theorem aadds_step_in_bounds (bc0 : bc0_file) (nft : List native_fn) (s : State)
    (arr : Int) (n sz : Nat) (elems : Int) (i : Int) (rest : List c0_value)
    (hop : s.P[s.pc]? = some AADDS) (hS : s.S = int2val i :: ptr2val arr :: rest)
    (hv : arr ≠ NULL)
    (harr : s.H.arrays arr = some { count := n, elt_size := sz, elems := elems })
    (h0 : 0 ≤ i) (hin : i < n) (hi : in_int32 i) (hsz : (sz : Int) < 2147483648)
    (hoff : i * sz < 2147483648) :
    step bc0 nft s =
      .next { s with pc := s.pc + 1, S := ptr2val (elems + i * sz) :: rest } := by
  have hvi : val2int (int2val i) = i := val2int_int2val hi
  have hu : to_uint32 i = i.toNat := by
    unfold in_int32 at hi; unfold to_uint32
    rw [Int.emod_eq_of_lt h0 (by omega)]
  have hszi : to_int32 (sz : Int) = sz := to_int32_of_in_int32 ⟨by omega, hsz⟩
  have hprod : to_int32 ((sz : Int) * i) = i * sz := by
    rw [Int.mul_comm]
    have hnonneg : 0 ≤ i * (sz : Int) := mul_nonneg h0 (Int.ofNat_nonneg sz)
    exact to_int32_of_in_int32 ⟨by omega, hoff⟩
  have hc : ¬ (i < 0 ∨ n < i.toNat) := by omega
  rw [aadds_step bc0 nft s _ _ rest _ hop hS hv harr, hvi, hu, hszi, hprod]
  exact if_neg hc

theorem ishr_step (bc0 : bc0_file) (nft : List native_fn) (s : State) (v1 v2 : c0_value)
    (rest : List c0_value) (hop : s.P[s.pc]? = some ISHR) (hS : s.S = v2 :: v1 :: rest) :
    step bc0 nft s =
      if val2int v2 < 0 ∨ 32 ≤ val2int v2 then
        .fault (.arith_error "Shifting right by over 32 bits")
      else
        .next { s with pc := s.pc + 1,
                       S := int2val (to_int32 (Int.shiftRight (val2int v1) (val2int v2).toNat)) ::
                              rest } := by
  simp only [step, hop, decode_ISHR, hS]

theorem ishl_step (bc0 : bc0_file) (nft : List native_fn) (s : State) (v1 v2 : c0_value)
    (rest : List c0_value) (hop : s.P[s.pc]? = some ISHL) (hS : s.S = v2 :: v1 :: rest) :
    step bc0 nft s =
      if val2int v2 < 0 ∨ 32 ≤ val2int v2 then
        .fault (.arith_error "Shifting left by over 32 bits")
      else
        .next { s with pc := s.pc + 1,
                       S := int2val (to_int32
                              ((to_uint32 (val2int v1) <<< (val2int v2).toNat : Nat))) ::
                              rest } := by
  simp only [step, hop, decode_ISHL, hS]

/-- The arithmetic right shift of an `int32_t` is the floor of the quotient by the
power of two, and stays in the `int32_t` range. -/
theorem shiftRight_floor {i1 : Int} (h1 : in_int32 i1) (k : Nat) :
    to_int32 (Int.shiftRight i1 k) = i1 / 2 ^ k := by
  have hsh : Int.shiftRight i1 k = i1 / ((2 ^ k : Nat) : Int) := Int.shiftRight_eq_div_pow i1 k
  rw [hsh]
  push_cast
  have hd : (0 : Int) < 2 ^ k := by positivity
  have hd1 : (1 : Int) ≤ 2 ^ k := hd
  unfold in_int32 at h1
  apply to_int32_of_in_int32
  unfold in_int32
  rcases lt_or_le i1 0 with hneg | hpos
  · have hlt : i1 / 2 ^ k < 0 := Int.ediv_neg' hneg hd
    have hge : i1 ≤ i1 / 2 ^ k := Int.le_ediv_of_mul_le hd (by nlinarith)
    omega
  · have hle : i1 / 2 ^ k ≤ i1 := Int.ediv_le_self _ hpos
    have hge : 0 ≤ i1 / 2 ^ k := Int.ediv_nonneg hpos (le_of_lt hd)
    omega

/-- The left shift of the 32-bit pattern of `i1` is congruent to `i1 * 2^k` modulo
`2^32`. -/
theorem shiftLeft_congr (i1 : Int) (k : Nat) :
    (to_int32 ((to_uint32 i1 <<< k : Nat)) - i1 * 2 ^ k) % 4294967296 = 0 := by
  have hu : ((to_uint32 i1 : Nat) : Int) = i1 % 4294967296 := by
    unfold to_uint32
    exact Int.toNat_of_nonneg (Int.emod_nonneg i1 (by decide))
  have hx : (((to_uint32 i1 <<< k : Nat)) : Int) = i1 % 4294967296 * 2 ^ k := by
    rw [Nat.shiftLeft_eq]; push_cast; rw [hu]
  rw [hx]
  have hd1 : (4294967296 : Int) ∣
      to_int32 (i1 % 4294967296 * 2 ^ k) - i1 % 4294967296 * 2 ^ k :=
    Int.dvd_of_emod_eq_zero (to_int32_congr _)
  have hd2 : (4294967296 : Int) ∣ (i1 % 4294967296 - i1) * 2 ^ k :=
    Dvd.dvd.mul_right (by omega) _
  have hsum : to_int32 (i1 % 4294967296 * 2 ^ k) - i1 * 2 ^ k =
      (to_int32 (i1 % 4294967296 * 2 ^ k) - i1 % 4294967296 * 2 ^ k) +
        (i1 % 4294967296 - i1) * 2 ^ k := by ring
  rw [hsum]
  exact Int.emod_eq_zero_of_dvd (dvd_add hd1 hd2)

/-- C10: with the value `i1` pushed first and the shift amount `i2` on top, one step
on ISHR or ISHL raises an arithmetic error exactly when `i2 < 0` or `i2 >= 32`;
otherwise ISHR pushes the floor of `i1 / 2^i2` (negative for negative `i1`) and ISHL
pushes the value in the `int32_t` range congruent to `i1 * 2^i2` modulo `2^32`. -/
theorem C10_shifts (bc0 : bc0_file) (nft : List native_fn) (s : State) (i1 i2 : Int)
    (rest : List c0_value) (h1 : in_int32 i1) (h2 : in_int32 i2)
    (hS : s.S = int2val i2 :: int2val i1 :: rest) :
    (s.P[s.pc]? = some ISHR ∨ s.P[s.pc]? = some ISHL →
      ((∃ msg, step bc0 nft s = .fault (.arith_error msg)) ↔ (i2 < 0 ∨ 32 ≤ i2))) ∧
    (s.P[s.pc]? = some ISHR → 0 ≤ i2 → i2 < 32 →
      ∃ r : Int, 2 ^ i2.toNat * r ≤ i1 ∧ i1 < 2 ^ i2.toNat * (r + 1) ∧ (i1 < 0 → r < 0) ∧
        step bc0 nft s = .next { s with pc := s.pc + 1, S := int2val r :: rest }) ∧
    (s.P[s.pc]? = some ISHL → 0 ≤ i2 → i2 < 32 →
      ∃ r : Int, in_int32 r ∧ (r - i1 * 2 ^ i2.toNat) % 4294967296 = 0 ∧
        step bc0 nft s = .next { s with pc := s.pc + 1, S := int2val r :: rest }) := by
  have hv1 : val2int (int2val i1) = i1 := val2int_int2val h1
  have hv2 : val2int (int2val i2) = i2 := val2int_int2val h2
  refine ⟨?_, ?_, ?_⟩
  · intro hop
    by_cases hc : i2 < 0 ∨ 32 ≤ i2
    · rcases hop with hop | hop
      · rw [ishr_step bc0 nft s _ _ rest hop hS, hv2, if_pos hc]
        exact ⟨fun _ => hc, fun _ => ⟨_, rfl⟩⟩
      · rw [ishl_step bc0 nft s _ _ rest hop hS, hv2, if_pos hc]
        exact ⟨fun _ => hc, fun _ => ⟨_, rfl⟩⟩
    · rcases hop with hop | hop
      · rw [ishr_step bc0 nft s _ _ rest hop hS, hv2, if_neg hc]
        exact ⟨fun ⟨_, h⟩ => (by cases h), fun h => absurd h hc⟩
      · rw [ishl_step bc0 nft s _ _ rest hop hS, hv2, if_neg hc]
        exact ⟨fun ⟨_, h⟩ => (by cases h), fun h => absurd h hc⟩
  · intro hop h0 h32
    have hd : (0 : Int) < 2 ^ i2.toNat := by positivity
    refine ⟨i1 / 2 ^ i2.toNat, ?_, ?_, fun hneg => Int.ediv_neg' hneg hd, ?_⟩
    · rw [Int.mul_comm]; exact Int.ediv_mul_le i1 (ne_of_gt hd)
    · rw [Int.mul_comm]; exact Int.lt_ediv_add_one_mul_self i1 hd
    · rw [ishr_step bc0 nft s _ _ rest hop hS, hv1, hv2, if_neg (by omega),
        shiftRight_floor h1]
  · intro hop h0 h32
    refine ⟨_, in_int32_to_int32 _, shiftLeft_congr i1 i2.toNat, ?_⟩
    rw [ishl_step bc0 nft s _ _ rest hop hS, hv1, hv2, if_neg (by omega)]

/-- Witness of C10: ISHR of -7 by 1 pushes a negative value `r` with `2 r <= -7 < 2 (r + 1)`. -/
theorem C10_shifts_witness :
    ∃ r : Int, 2 ^ (1 : Int).toNat * r ≤ -7 ∧ -7 < 2 ^ (1 : Int).toNat * (r + 1) ∧
      (-7 < (0 : Int) → r < 0) ∧
      step (single [ISHR]) [] (entry_state [int2val 1, int2val (-7)] [ISHR] 0 Heap.empty) =
        .next (entry_state [int2val r] [ISHR] 1 Heap.empty) :=
  (C10_shifts (single [ISHR]) [] (entry_state [int2val 1, int2val (-7)] [ISHR] 0 Heap.empty)
    (-7) 1 [] (by decide) (by decide) rfl).2.1 rfl (by decide) (by decide)

/-- Witness of C9: with `x = 4` and `y = 6` the two-function program returns 10. -/
theorem C9_call_program_adds_witness :
    execute (call_program 4 6) [] Heap.empty 8 = .done 10 :=
  (C9_call_program_adds 4 6 (by decide) (by decide) [] Heap.empty).1 8 (le_refl 8)

/-! ## Memory access -/

theorem decode_POP : decode POP = some .POP := by decide
theorem decode_DUP : decode DUP = some .DUP := by decide
theorem decode_SWAP : decode SWAP = some .SWAP := by decide
theorem decode_GOTO : decode GOTO = some .GOTO := by decide
theorem decode_NEW : decode NEW = some .NEW := by decide
theorem decode_IMLOAD : decode IMLOAD = some .IMLOAD := by decide
theorem decode_IMSTORE : decode IMSTORE = some .IMSTORE := by decide
theorem decode_AMLOAD : decode AMLOAD = some .AMLOAD := by decide
theorem decode_AMSTORE : decode AMSTORE = some .AMSTORE := by decide
theorem decode_CMLOAD : decode CMLOAD = some .CMLOAD := by decide
theorem decode_CMSTORE : decode CMSTORE = some .CMSTORE := by decide
theorem imload_step (bc0 : bc0_file) (nft : List native_fn) (s : State) (v : c0_value)
    (rest : List c0_value) (hop : s.P[s.pc]? = some IMLOAD) (hS : s.S = v :: rest) :
    step bc0 nft s =
      if val2ptr v = NULL then .fault (.memory_error "Can't store NULL pointer")
      else
        .next { s with pc := s.pc + 1,
                       S := int2val (to_int32 (read32 s.H.bytes (val2ptr v))) :: rest } := by
  simp only [step, hop, decode_IMLOAD, hS]

theorem amload_step (bc0 : bc0_file) (nft : List native_fn) (s : State) (v : c0_value)
    (rest : List c0_value) (hop : s.P[s.pc]? = some AMLOAD) (hS : s.S = v :: rest) :
    step bc0 nft s =
      if val2ptr v = NULL then .fault (.memory_error "Can't store NULL pointer")
      else .next { s with pc := s.pc + 1, S := ptr2val (val2ptr v) :: rest } := by
  simp only [step, hop, decode_AMLOAD, hS]

theorem cmload_step (bc0 : bc0_file) (nft : List native_fn) (s : State) (v : c0_value)
    (rest : List c0_value) (hop : s.P[s.pc]? = some CMLOAD) (hS : s.S = v :: rest) :
    step bc0 nft s =
      if val2ptr v = NULL then .fault (.memory_error "Can't store NULL pointer")
      else
        .next { s with pc := s.pc + 1,
                       S := int2val (to_int32 (read32 s.H.bytes (val2ptr v))) :: rest } := by
  simp only [step, hop, decode_CMLOAD, hS]

theorem imstore_step (bc0 : bc0_file) (nft : List native_fn) (s : State) (v vi : c0_value)
    (rest : List c0_value) (hop : s.P[s.pc]? = some IMSTORE) (hS : s.S = v :: vi :: rest)
    (hv : val2ptr v ≠ NULL) :
    step bc0 nft s =
      .next { s with pc := s.pc + 1, S := rest,
                     H := { s.H with
                              bytes := write32 s.H.bytes (val2ptr v) (to_uint32 (val2int vi)) } } := by
  simp only [step, hop, decode_IMSTORE, hS, if_neg hv]

theorem amstore_step (bc0 : bc0_file) (nft : List native_fn) (s : State) (v v2 : c0_value)
    (rest : List c0_value) (hop : s.P[s.pc]? = some AMSTORE) (hS : s.S = v :: v2 :: rest)
    (hv : val2ptr v ≠ NULL) :
    step bc0 nft s =
      .next { s with pc := s.pc + 1, S := rest,
                     H := { s.H with
                              bytes := write64 s.H.bytes (val2ptr v) (to_uint64 (val2ptr v2)) } } := by
  simp only [step, hop, decode_AMSTORE, hS, if_neg hv]

theorem cmstore_step (bc0 : bc0_file) (nft : List native_fn) (s : State) (v vi : c0_value)
    (rest : List c0_value) (hop : s.P[s.pc]? = some CMSTORE) (hS : s.S = v :: vi :: rest)
    (hv : val2ptr v ≠ NULL) :
    step bc0 nft s =
      .next { s with pc := s.pc + 1, S := rest,
                     H := { s.H with
                              bytes := write32 s.H.bytes (val2ptr v)
                                         (to_uint32 (val2int vi) &&& 0x7f) } } := by
  simp only [step, hop, decode_CMSTORE, hS, if_neg hv]

theorem pop_step (bc0 : bc0_file) (nft : List native_fn) (s : State) (v : c0_value)
    (rest : List c0_value) (hop : s.P[s.pc]? = some POP) (hS : s.S = v :: rest) :
    step bc0 nft s = .next { s with pc := s.pc + 1, S := rest } := by
  simp only [step, hop, decode_POP, hS]

theorem dup_step (bc0 : bc0_file) (nft : List native_fn) (s : State) (v : c0_value)
    (rest : List c0_value) (hop : s.P[s.pc]? = some DUP) (hS : s.S = v :: rest) :
    step bc0 nft s = .next { s with pc := s.pc + 1, S := v :: v :: rest } := by
  simp only [step, hop, decode_DUP, hS]

theorem swap_step (bc0 : bc0_file) (nft : List native_fn) (s : State) (v1 v2 : c0_value)
    (rest : List c0_value) (hop : s.P[s.pc]? = some SWAP) (hS : s.S = v2 :: v1 :: rest) :
    step bc0 nft s = .next { s with pc := s.pc + 1, S := v1 :: v2 :: rest } := by
  simp only [step, hop, decode_SWAP, hS]

theorem xcalloc_ne_null (h : Heap) (nobj size : Nat) : (xcalloc h nobj size).1 ≠ NULL := by
  unfold xcalloc NULL; simp only []; omega

theorem new_step (bc0 : bc0_file) (nft : List native_fn) (s : State) (b : ubyte)
    (hop : s.P[s.pc]? = some NEW) (hb : s.P[s.pc + 1]? = some b) :
    step bc0 nft s =
      .next { s with pc := s.pc + 2,
                     S := ptr2val (xcalloc s.H 1 (to_int32 b).toNat).1 :: s.S,
                     H := (xcalloc s.H 1 (to_int32 b).toNat).2 } := by
  simp only [step, hop, decode_NEW, hb]
  exact if_neg (xcalloc_ne_null _ _ _)

/-- C12, on a cell that holds another address: `amload_program` reaches AMLOAD with
the address 1 on top of the stack and the 8-byte cell at 1 holding the address 10
(stored there by its AMSTORE); the step pushes the address 1 itself, not the
stored reference 10. -/
theorem C12_amload_pushes_address :
    ∃ t : State, execute amload_program [] Heap.empty 5 = .next t ∧
      t.P[t.pc]? = some AMLOAD ∧ t.S = [ptr2val 1] ∧ read64 t.H.bytes 1 = 10 ∧
      step amload_program [] t = .next { t with pc := t.pc + 1, S := [ptr2val 1] } := by
  have h5 : execute amload_program [] Heap.empty 5 =
      .next { S := [ptr2val 1], P := [NEW, 8, DUP, NEW, 8, SWAP, AMSTORE, AMLOAD, RETURN],
              pc := 7, V := [], callStack := [], H := amload_heap } := by
    simp only [execute, initial, amload_program, single, List.getElem?_cons_zero,
      List.replicate]
    rw [run_succ, new_step _ _ _ 8 (by rfl) (by rfl)]
    simp only []
    rw [run_succ, dup_step _ _ _ _ [] (by rfl) (by rfl)]
    simp only []
    rw [run_succ, new_step _ _ _ 8 (by rfl) (by rfl)]
    simp only []
    rw [run_succ, swap_step _ _ _ _ _ _ (by rfl) (by rfl)]
    simp only []
    rw [run_succ, amstore_step _ _ _ _ _ _ (by rfl) (by rfl) (by decide)]
    simp only []
    rfl
  refine ⟨_, h5, by rfl, rfl, by decide, ?_⟩
  rw [amload_step _ _ _ (ptr2val 1) [] (by rfl) (by rfl), if_neg (by decide)]
  rfl

/-- C13, on a cell whose second byte is not zero: after IMSTORE has stored 321
(bytes 65, 1, 0, 0), respectively 65 (bytes 65, 0, 0, 0), in the cell at address 1,
the two heaps agree on the byte at 1, and CMLOAD on the address 1 pushes 321 on the
first heap and 65 on the second: it reads four bytes. -/
theorem C13_cmload_reads_four_bytes :
    ∃ t1 t2 : State,
      execute (cmload_program 321) [] Heap.empty 5 = .next t1 ∧
      execute (cmload_program 65) [] Heap.empty 5 = .next t2 ∧
      t1.P[t1.pc]? = some CMLOAD ∧ t2.P[t2.pc]? = some CMLOAD ∧
      t1.S = [ptr2val 1] ∧ t2.S = [ptr2val 1] ∧
      t1.H.bytes 1 = 65 ∧ t2.H.bytes 1 = 65 ∧
      step (cmload_program 321) [] t1 = .next { t1 with pc := t1.pc + 1, S := [int2val 321] } ∧
      step (cmload_program 65) [] t2 = .next { t2 with pc := t2.pc + 1, S := [int2val 65] } := by
  have h5 : ∀ x : Int, in_int32 x → 0 ≤ x → execute (cmload_program x) [] Heap.empty 5 =
      .next { S := [ptr2val 1], P := [NEW, 4, DUP, ILDC, 0, 0, SWAP, IMSTORE, CMLOAD, RETURN],
              pc := 8, V := [], callStack := [], H := cell_heap x.toNat } := by
    intro x hx h0
    have hu : to_uint32 (val2int (int2val x)) = x.toNat := by
      rw [val2int_int2val hx]
      unfold in_int32 at hx; unfold to_uint32
      rw [Int.emod_eq_of_lt h0 (by omega)]
    simp only [execute, initial, cmload_program, List.getElem?_cons_zero, List.replicate]
    rw [run_succ, new_step _ _ _ 4 (by rfl) (by rfl)]
    simp only []
    rw [run_succ, dup_step _ _ _ _ [] (by rfl) (by rfl)]
    simp only []
    rw [run_succ, ildc_step _ _ _ 0 0 x (by rfl) (by rfl) (by rfl) (by rfl)]
    simp only []
    rw [run_succ, swap_step _ _ _ _ _ _ (by rfl) (by rfl)]
    simp only []
    rw [run_succ, imstore_step _ _ _ _ _ _ (by rfl) (by rfl) (by decide)]
    simp only [hu]
    rfl
  refine ⟨_, _, h5 321 (by decide) (by decide), h5 65 (by decide) (by decide),
    by rfl, by rfl, rfl, rfl, by decide, by decide, ?_, ?_⟩
  · rw [cmload_step _ _ _ (ptr2val 1) [] (by rfl) (by rfl), if_neg (by decide)]
    have hv : int2val (to_int32 (read32 (cell_heap (321 : Int).toNat).bytes (val2ptr (ptr2val 1)))) =
        int2val 321 := by decide
    simp only [hv]
  · rw [cmload_step _ _ _ (ptr2val 1) [] (by rfl) (by rfl), if_neg (by decide)]
    have hv : int2val (to_int32 (read32 (cell_heap (65 : Int).toNat).bytes (val2ptr (ptr2val 1)))) =
        int2val 65 := by decide
    simp only [hv]

/-- C14, on a cell whose second byte is not zero: `cmstore_program` reaches CMSTORE
with the address 1 on top of the value 65 and the bytes 1, 1 at the addresses 1, 2;
after the step the byte at 1 holds 65 and the byte at 2, which is neither operand,
has changed from 1 to 0: four bytes are written. -/
theorem C14_cmstore_writes_four_bytes :
    ∃ t : State, execute cmstore_program [] Heap.empty 8 = .next t ∧
      t.P[t.pc]? = some CMSTORE ∧ t.S = [ptr2val 1, int2val 65, ptr2val 1] ∧
      t.H.bytes 1 = 1 ∧ t.H.bytes 2 = 1 ∧
      ∃ t1 : State, step cmstore_program [] t = .next t1 ∧ t1.S = [ptr2val 1] ∧
        t1.H.bytes 1 = 65 ∧ t1.H.bytes 2 = 0 := by
  have h8 : execute cmstore_program [] Heap.empty 8 =
      .next { S := [ptr2val 1, int2val 65, ptr2val 1],
              P := [NEW, 4, DUP, DUP, ILDC, 0, 0, SWAP, IMSTORE, BIPUSH, 65, SWAP, CMSTORE,
                    RETURN],
              pc := 12, V := [], callStack := [], H := cell_heap 257 } := by
    simp only [execute, initial, cmstore_program, List.getElem?_cons_zero, List.replicate]
    rw [run_succ, new_step _ _ _ 4 (by rfl) (by rfl)]
    simp only []
    rw [run_succ, dup_step _ _ _ _ [] (by rfl) (by rfl)]
    simp only []
    rw [run_succ, dup_step _ _ _ _ _ (by rfl) (by rfl)]
    simp only []
    rw [run_succ, ildc_step _ _ _ 0 0 257 (by rfl) (by rfl) (by rfl) (by rfl)]
    simp only []
    rw [run_succ, swap_step _ _ _ _ _ _ (by rfl) (by rfl)]
    simp only []
    rw [run_succ, imstore_step _ _ _ _ _ _ (by rfl) (by rfl) (by decide)]
    simp only []
    rw [run_succ, bipush_step _ _ _ 65 (by rfl) (by rfl), bipush_small (by decide)]
    simp only [Nat.cast_ofNat]
    rw [run_succ, swap_step _ _ _ _ _ _ (by rfl) (by rfl)]
    simp only []
    rfl
  refine ⟨_, h8, by rfl, rfl, by decide, by decide, ?_⟩
  rw [cmstore_step _ _ _ (ptr2val 1) (int2val 65) [ptr2val 1] (by rfl) (by rfl) (by decide)]
  exact ⟨_, rfl, rfl, by decide, by decide⟩

theorem read32_write32 (m : Int → Nat) (a : Int) (x : Nat) :
    read32 (write32 m a x) a = x % 4294967296 := by
  have h1 : a + 1 ≠ a := by omega
  have h2 : a + 2 ≠ a := by omega
  have h3 : a + 3 ≠ a := by omega
  have h4 : a + 2 ≠ a + 1 := by omega
  have h5 : a + 3 ≠ a + 1 := by omega
  have h6 : a + 3 ≠ a + 2 := by omega
  simp only [read32, write32, if_true, if_neg h1, if_neg h2, if_neg h3, if_neg h4, if_neg h5,
    if_neg h6]
  omega

/-- The operand order IMSTORE implements: with the address `a` on top of the stack
and the value `x` beneath it, IMSTORE writes `x` into the 4-byte cell at `a`, and
an IMLOAD on `a` executed on the resulting heap pushes `x`. -/
theorem imstore_address_on_top (bc0 : bc0_file) (nft : List native_fn) (s : State) (a x : Int)
    (rest : List c0_value) (ha : a ≠ NULL) (hx : in_int32 x)
    (hop : s.P[s.pc]? = some IMSTORE) (hS : s.S = ptr2val a :: int2val x :: rest) :
    ∃ s1 : State, step bc0 nft s = .next s1 ∧ s1.S = rest ∧ s1.pc = s.pc + 1 ∧
      ∀ (t : State) (rest1 : List c0_value), t.H = s1.H → t.P[t.pc]? = some IMLOAD →
        t.S = ptr2val a :: rest1 →
        step bc0 nft t = .next { t with pc := t.pc + 1, S := int2val x :: rest1 } := by
  refine ⟨_, imstore_step bc0 nft s _ _ rest hop hS ha, rfl, rfl, ?_⟩
  intro t rest1 hH hopt hSt
  have hu : ((to_uint32 x % 4294967296 : Nat) : Int) = x % 4294967296 := by
    unfold to_uint32
    rw [Nat.mod_eq_of_lt (by omega)]
    exact Int.toNat_of_nonneg (Int.emod_nonneg x (by decide))
  have hval : to_int32 (read32 t.H.bytes (val2ptr (ptr2val a))) = x := by
    rw [hH]
    show to_int32 (read32 (write32 s.H.bytes a (to_uint32 (val2int (int2val x)))) a) = x
    rw [read32_write32, val2int_int2val hx, hu]
    unfold in_int32 at hx; unfold to_int32; omega
  rw [imload_step bc0 nft t _ rest1 hopt hSt,
    if_neg (show ¬ val2ptr (ptr2val a) = NULL from ha), hval]

/-- C15: on a non-empty operand stack, DUP; POP; POP raises no error and leaves the
operand stack (the stack without its top), the locals, the call stack and the heap
that a single POP leaves; the first run adds 3 to `pc` and the second adds 1. -/
theorem C15_dup_pop_pop (bc0 : bc0_file) (nft : List native_fn) (s t : State) (v : c0_value)
    (rest : List c0_value) (hS : s.S = v :: rest)
    (hSt : t.S = s.S) (hV : t.V = s.V) (hcs : t.callStack = s.callStack) (hH : t.H = s.H)
    (h0 : s.P[s.pc]? = some DUP) (h1 : s.P[s.pc + 1]? = some POP)
    (h2 : s.P[s.pc + 2]? = some POP) (ht : t.P[t.pc]? = some POP) :
    run bc0 nft 3 s = .next { s with pc := s.pc + 3, S := rest } ∧
    step bc0 nft t = .next { t with pc := t.pc + 1, S := rest } ∧
    ∃ s3 t1 : State, run bc0 nft 3 s = .next s3 ∧ step bc0 nft t = .next t1 ∧
      s3.S = t1.S ∧ s3.V = t1.V ∧ s3.callStack = t1.callStack ∧ s3.H = t1.H ∧
      s3.pc = s.pc + 3 ∧ t1.pc = t.pc + 1 := by
  have h2a : s.P[s.pc + 1 + 1]? = some POP := h2
  have hrun : run bc0 nft 3 s = .next { s with pc := s.pc + 3, S := rest } := by
    rw [run_succ, dup_step bc0 nft s v rest h0 hS]
    simp only []
    rw [run_succ, pop_step bc0 nft _ v (v :: rest) h1 rfl]
    simp only []
    rw [run_succ, pop_step bc0 nft _ v rest h2a rfl]
    simp only []
    rfl
  have hstep : step bc0 nft t = .next { t with pc := t.pc + 1, S := rest } :=
    pop_step bc0 nft t v rest ht (hSt.trans hS)
  exact ⟨hrun, hstep, _, _, hrun, hstep, rfl, hV.symm, hcs.symm, hH.symm, rfl, rfl⟩

/-- Witness of C15: a stack with exactly one value. -/
theorem C15_dup_pop_pop_witness :
    run (single [DUP, POP, POP]) [] 3 (entry_state [int2val 5] [DUP, POP, POP] 0 Heap.empty) =
        .next (entry_state [] [DUP, POP, POP] 3 Heap.empty) ∧
      step (single [POP]) [] (entry_state [int2val 5] [POP] 0 Heap.empty) =
        .next (entry_state [] [POP] 1 Heap.empty) :=
  let h := C15_dup_pop_pop (single [DUP, POP, POP]) []
    (entry_state [int2val 5] [DUP, POP, POP] 0 Heap.empty)
    (entry_state [int2val 5] [POP] 0 Heap.empty) (int2val 5) [] rfl rfl rfl rfl rfl rfl rfl rfl
    rfl
  ⟨h.1, h.2.1⟩

theorem goto_step (bc0 : bc0_file) (nft : List native_fn) (s : State) (b1 b2 : ubyte)
    (hop : s.P[s.pc]? = some GOTO) (hb1 : s.P[s.pc + 1]? = some b1)
    (hb2 : s.P[s.pc + 2]? = some b2) :
    step bc0 nft s =
      .next { s with pc := to_size_t ((s.pc : Nat) + to_int16 (operand16 b1 b2)) } := by
  simp only [step, hop, decode_GOTO, hb1, hb2]

/-- C16: a GOTO at position `pc` whose operand bytes encode the signed 16-bit offset
`off`, with `pc + off >= 0` (and below `2^64`, the range of `pc`), sets `pc` to
`pc + off` and changes nothing else. -/
theorem C16_goto (bc0 : bc0_file) (nft : List native_fn) (s : State) (b1 b2 : Nat) (off : Int)
    (h1 : b1 < 256) (h2 : b2 < 256)
    (hoff : off = if b1 * 256 + b2 < 32768 then ((b1 * 256 + b2 : Nat) : Int)
                  else ((b1 * 256 + b2 : Nat) : Int) - 65536)
    (hop : s.P[s.pc]? = some GOTO) (hb1 : s.P[s.pc + 1]? = some b1)
    (hb2 : s.P[s.pc + 2]? = some b2)
    (hlo : 0 ≤ (s.pc : Int) + off) (hhi : (s.pc : Int) + off < 18446744073709551616) :
    ∃ q : Nat, (q : Int) = (s.pc : Int) + off ∧ step bc0 nft s = .next { s with pc := q } := by
  have h16 : to_int16 (operand16 b1 b2) = off := by
    rw [operand16_eq b1 h2, hoff]
    unfold to_int16
    split <;> push_cast <;> omega
  refine ⟨((s.pc : Int) + off).toNat, Int.toNat_of_nonneg hlo, ?_⟩
  rw [goto_step bc0 nft s b1 b2 hop hb1 hb2, h16]
  have hsz : to_size_t ((s.pc : Int) + off) = ((s.pc : Int) + off).toNat := by
    unfold to_size_t
    rw [Int.emod_eq_of_lt hlo hhi]
  rw [hsz]

/-- Witness of C16: a GOTO at position 3 with the offset -3 (bytes `0xFF 0xFD`)
jumps back to position 0. -/
theorem C16_goto_witness :
    ∃ q : Nat, (q : Int) = ((3 : Nat) : Int) + (-3) ∧
      step (single (backward_code GOTO)) []
          (entry_state [int2val 1] (backward_code GOTO) 3 Heap.empty) =
        .next (entry_state [int2val 1] (backward_code GOTO) q Heap.empty) :=
  C16_goto (single (backward_code GOTO)) []
    (entry_state [int2val 1] (backward_code GOTO) 3 Heap.empty) 0xFF 0xFD (-3)
    (by decide) (by decide) (by decide) rfl rfl rfl (by decide) (by decide)

theorem decode_implemented : ∀ op ∈ implemented, decode op ≠ none := by decide

theorem decode_eq_none_iff (op : ubyte) : decode op = none ↔ op ∉ implemented := by
  constructor
  · intro h hmem
    exact decode_implemented op hmem h
  · intro hnot
    have hne : ∀ c : ubyte, c ∈ implemented → ¬ op = c := fun c hc h => hnot (h ▸ hc)
    unfold decode
    rw [if_neg (hne POP (by decide)),
      if_neg (hne DUP (by decide)),
      if_neg (hne SWAP (by decide)),
      if_neg (hne RETURN (by decide)),
      if_neg (hne IADD (by decide)),
      if_neg (hne ISUB (by decide)),
      if_neg (hne IMUL (by decide)),
      if_neg (hne IDIV (by decide)),
      if_neg (hne IREM (by decide)),
      if_neg (hne IAND (by decide)),
      if_neg (hne IOR (by decide)),
      if_neg (hne IXOR (by decide)),
      if_neg (hne ISHR (by decide)),
      if_neg (hne ISHL (by decide)),
      if_neg (hne BIPUSH (by decide)),
      if_neg (hne ILDC (by decide)),
      if_neg (hne ALDC (by decide)),
      if_neg (hne ACONST_NULL (by decide)),
      if_neg (hne VLOAD (by decide)),
      if_neg (hne VSTORE (by decide)),
      if_neg (hne ATHROW (by decide)),
      if_neg (hne ASSERT (by decide)),
      if_neg (hne NOP (by decide)),
      if_neg (hne IF_CMPEQ (by decide)),
      if_neg (hne IF_CMPNE (by decide)),
      if_neg (hne IF_ICMPLT (by decide)),
      if_neg (hne IF_ICMPGE (by decide)),
      if_neg (hne IF_ICMPGT (by decide)),
      if_neg (hne IF_ICMPLE (by decide)),
      if_neg (hne GOTO (by decide)),
      if_neg (hne INVOKESTATIC (by decide)),
      if_neg (hne INVOKENATIVE (by decide)),
      if_neg (hne NEW (by decide)),
      if_neg (hne IMLOAD (by decide)),
      if_neg (hne IMSTORE (by decide)),
      if_neg (hne AMLOAD (by decide)),
      if_neg (hne AMSTORE (by decide)),
      if_neg (hne CMLOAD (by decide)),
      if_neg (hne CMSTORE (by decide)),
      if_neg (hne AADDF (by decide)),
      if_neg (hne NEWARRAY (by decide)),
      if_neg (hne ARRAYLENGTH (by decide)),
      if_neg (hne AADDS (by decide))]

/-- C17: an opcode byte that has no handler (the reserved opcodes among them) ends
the step with the invalid-opcode abort, whatever the operand stack, locals, call
stack and heap are; that outcome is not an arithmetic, memory, user or assertion
error and is not a returned result. -/
theorem C17_invalid_opcode (bc0 : bc0_file) (nft : List native_fn) (s : State) (op : ubyte)
    (hop : s.P[s.pc]? = some op) (hnot : op ∉ implemented) :
    (∀ (S V : List c0_value) (cs : List frame) (H : Heap),
      step bc0 nft { s with S := S, V := V, callStack := cs, H := H } =
        .fault (.invalid_opcode op)) ∧
    step bc0 nft s = .fault (.invalid_opcode op) ∧
    (∀ msg, Fault.invalid_opcode op ≠ .arith_error msg) ∧
    (∀ msg, Fault.invalid_opcode op ≠ .memory_error msg) ∧
    (∀ a, Fault.invalid_opcode op ≠ .user_error a) ∧
    (∀ a, Fault.invalid_opcode op ≠ .assertion_failure a) ∧
    (∀ r, step bc0 nft s ≠ .done r) ∧
    CHECKTAG ∉ implemented ∧ HASTAG ∉ implemented ∧ ADDTAG ∉ implemented ∧
    ADDROF_STATIC ∉ implemented ∧ ADDROF_NATIVE ∉ implemented ∧
    INVOKEDYNAMIC ∉ implemented := by
  have hd : decode op = none := (decode_eq_none_iff op).mpr hnot
  have hall : ∀ t : State, t.P[t.pc]? = some op → step bc0 nft t = .fault (.invalid_opcode op) := by
    intro t ht
    simp only [step, ht, hd]
  refine ⟨fun S V cs H => hall _ hop, hall s hop, fun _ h => (by cases h),
    fun _ h => (by cases h), fun _ h => (by cases h), fun _ h => (by cases h), fun r h => ?_,
    by decide, by decide, by decide, by decide, by decide, by decide⟩
  rw [hall s hop] at h
  cases h

/-- Witness of C17: the reserved opcode CHECKTAG. -/
theorem C17_invalid_opcode_witness :
    step (single [CHECKTAG]) [] (entry_state [int2val 1] [CHECKTAG] 0 Heap.empty) =
      .fault (.invalid_opcode CHECKTAG) :=
  (C17_invalid_opcode (single [CHECKTAG]) [] (entry_state [int2val 1] [CHECKTAG] 0 Heap.empty)
    CHECKTAG rfl (by decide)).2.1

/-- The target of a taken conditional for operand bytes `b1`, `b2`, when it fits
`size_t`: `pc` plus the operand read as an unsigned 16-bit number. -/
theorem branch_target_unsigned (pc : Nat) {b1 b2 : Nat} (h2 : b2 < 256)
    (hfit : pc + (b1 * 256 + b2) < 18446744073709551616) (h1 : b1 < 256) :
    branch_target pc b1 b2 = pc + (b1 * 256 + b2) := by
  unfold branch_target
  rw [operand16_eq b1 h2]
  unfold to_size_t to_int32
  push_cast
  omega

/-- C18: a conditional at position `pc` with a non-negative offset `off <= 32767`
(operand bytes `off / 256`, `off % 256`) on the operand stack `v2 :: v1 :: rest`
pops both values, keeps `rest`, and sets `pc` to `pc + off` when its relation holds
and to `pc + 3` otherwise; the relation is `v1 = v2`, `v1 ≠ v2` on value cells for
IF_CMPEQ, IF_CMPNE and `<`, `>=`, `>`, `<=` on the 32-bit integers `val2int v1`,
`val2int v2` for IF_ICMPLT, IF_ICMPGE, IF_ICMPGT, IF_ICMPLE. -/
theorem C18_forward_conditional (bc0 : bc0_file) (nft : List native_fn) (s : State) (off : Nat)
    (v1 v2 : c0_value) (rest : List c0_value) (hoff : off ≤ 32767)
    (hb1 : s.P[s.pc + 1]? = some (off / 256)) (hb2 : s.P[s.pc + 2]? = some (off % 256))
    (hS : s.S = v2 :: v1 :: rest) (hfit : s.pc + off < 18446744073709551616) :
    (s.P[s.pc]? = some IF_CMPEQ →
      step bc0 nft s =
        .next { s with S := rest, pc := if v1 = v2 then s.pc + off else s.pc + 3 }) ∧
    (s.P[s.pc]? = some IF_CMPNE →
      step bc0 nft s =
        .next { s with S := rest, pc := if v1 ≠ v2 then s.pc + off else s.pc + 3 }) ∧
    (s.P[s.pc]? = some IF_ICMPLT →
      step bc0 nft s =
        .next { s with S := rest,
                       pc := if val2int v1 < val2int v2 then s.pc + off else s.pc + 3 }) ∧
    (s.P[s.pc]? = some IF_ICMPGE →
      step bc0 nft s =
        .next { s with S := rest,
                       pc := if val2int v1 ≥ val2int v2 then s.pc + off else s.pc + 3 }) ∧
    (s.P[s.pc]? = some IF_ICMPGT →
      step bc0 nft s =
        .next { s with S := rest,
                       pc := if val2int v1 > val2int v2 then s.pc + off else s.pc + 3 }) ∧
    (s.P[s.pc]? = some IF_ICMPLE →
      step bc0 nft s =
        .next { s with S := rest,
                       pc := if val2int v1 ≤ val2int v2 then s.pc + off else s.pc + 3 }) := by
  have hsplit : off / 256 * 256 + off % 256 = off := by omega
  have ht : branch_target s.pc (off / 256) (off % 256) = s.pc + off := by
    rw [branch_target_unsigned s.pc (by omega) (by omega) (by omega), hsplit]
  refine ⟨fun hop => ?_, fun hop => ?_, fun hop => ?_, fun hop => ?_, fun hop => ?_,
    fun hop => ?_⟩
  · rw [if_cmpeq_step bc0 nft s _ _ v1 v2 rest hop hb1 hb2 hS, ht]
    by_cases h : v1 = v2 <;> simp [val_equal, h]
  · rw [if_cmpne_step bc0 nft s _ _ v1 v2 rest hop hb1 hb2 hS, ht]
    by_cases h : v1 = v2 <;> simp [val_equal, h]
  · rw [if_icmplt_step bc0 nft s _ _ v1 v2 rest hop hb1 hb2 hS, ht]
    split <;> rfl
  · rw [if_icmpge_step bc0 nft s _ _ v1 v2 rest hop hb1 hb2 hS, ht]
    split <;> rfl
  · rw [if_icmpgt_step bc0 nft s _ _ v1 v2 rest hop hb1 hb2 hS, ht]
    split <;> rfl
  · rw [if_icmple_step bc0 nft s _ _ v1 v2 rest hop hb1 hb2 hS, ht]
    split <;> rfl

/-- Witness of C18: IF_ICMPLT at position 0 with offset 6 on the operands 1 (pushed
first) and 2 branches to position 6. -/
theorem C18_forward_conditional_witness :
    step (single [IF_ICMPLT, 0, 6]) []
        (entry_state [int2val 2, int2val 1] [IF_ICMPLT, 0, 6] 0 Heap.empty) =
      .next (entry_state [] [IF_ICMPLT, 0, 6] 6 Heap.empty) :=
  (C18_forward_conditional (single [IF_ICMPLT, 0, 6]) []
    (entry_state [int2val 2, int2val 1] [IF_ICMPLT, 0, 6] 0 Heap.empty) 6 (int2val 1) (int2val 2)
    [] (by decide) rfl rfl rfl (by decide)).2.2.1 rfl

/-! ## Truncated division -/

theorem neg_tmod_eq (a b : Int) : (-a).tmod b = -(a.tmod b) := by
  rw [Int.tmod_def, Int.tmod_def, Int.neg_tdiv]
  ring

/-- The remainder of the truncated division is zero or has the sign of the
dividend, and is smaller than the divisor in absolute value. -/
theorem tmod_bounds (a b : Int) (hb : b ≠ 0) :
    (0 ≤ a → 0 ≤ a.tmod b) ∧ (a ≤ 0 → a.tmod b ≤ 0) ∧ -|b| < a.tmod b ∧ a.tmod b < |b| := by
  have habs : 0 < |b| := abs_pos.mpr hb
  have hpos : ∀ c : Int, 0 ≤ c → 0 ≤ c.tmod b ∧ c.tmod b < |b| := by
    intro c hc
    refine ⟨Int.tmod_nonneg b hc, ?_⟩
    rcases lt_or_gt_of_ne hb with hneg | hpos
    · have h := Int.tmod_lt_of_pos c (show 0 < -b by omega)
      rw [Int.tmod_neg] at h
      rw [abs_of_neg hneg]; exact h
    · rw [abs_of_pos hpos]; exact Int.tmod_lt_of_pos c hpos
  rcases le_total 0 a with ha | ha
  · have h := hpos a ha
    exact ⟨fun _ => h.1, fun h0 => by
      have : a = 0 := le_antisymm h0 ha
      subst this; simp, by omega, h.2⟩
  · have h := hpos (-a) (by omega)
    rw [neg_tmod_eq] at h
    exact ⟨fun h0 => by
      have : a = 0 := le_antisymm ha h0
      subst this; simp, fun _ => by omega, by omega, by omega⟩

/-- The truncated quotient of two `int32_t` values fits `int32_t`, except for
`-2^31 / -1`. -/
theorem tdiv_in_int32 {a b : Int} (ha : in_int32 a) (hb : in_int32 b)
    (hm : ¬ (a = -2147483648 ∧ b = -1)) : in_int32 (a.tdiv b) := by
  unfold in_int32 at *
  have hq : (a.tdiv b).natAbs = a.natAbs / b.natAbs := Int.natAbs_tdiv a b
  have hle : a.natAbs / b.natAbs ≤ a.natAbs := Nat.div_le_self _ _
  have ha' : a.natAbs ≤ 2147483648 := by omega
  refine ⟨by omega, ?_⟩
  by_contra hge
  have hq2 : a.tdiv b = 2147483648 := by omega
  have haeq : a = -2147483648 := by omega
  have hb1 : b.natAbs = 1 := by
    by_contra hne
    rcases Nat.lt_or_ge b.natAbs 2 with hlt | hge2
    · have hb0 : b.natAbs = 0 := by omega
      rw [hb0, Nat.div_zero] at hq
      omega
    · have h2 : a.natAbs / b.natAbs ≤ a.natAbs / 2 :=
        Nat.div_le_div_left hge2 (by decide)
      omega
  rcases Int.natAbs_eq b with hb' | hb'
  · rw [hb1] at hb'
    rw [hb', haeq] at hq2
    simp at hq2
  · rw [hb1] at hb'
    exact hm ⟨haeq, hb'⟩

/-- C20: for operands that do not trap, the quotient `q` pushed by IDIV and the
remainder `r` pushed by IREM satisfy `i1 = q * i2 + r` with `|r| < |i2|`, `r` is
zero or has the sign of `i1`, `|q * i2| <= |i1|` (truncation toward zero), and
both fit 32 bits without wraparound. -/
theorem C20_div_rem_identity (bc0 : bc0_file) (nft : List native_fn) (sd sr : State)
    (i1 i2 : Int) (rest : List c0_value) (h1 : in_int32 i1) (h2 : in_int32 i2)
    (hSd : sd.S = int2val i2 :: int2val i1 :: rest)
    (hSr : sr.S = int2val i2 :: int2val i1 :: rest)
    (hd : sd.P[sd.pc]? = some IDIV) (hr : sr.P[sr.pc]? = some IREM)
    (hz : i2 ≠ 0) (hm : ¬ (i1 = -2147483648 ∧ i2 = -1)) :
    ∃ q r : Int,
      step bc0 nft sd = .next { sd with pc := sd.pc + 1, S := int2val q :: rest } ∧
      step bc0 nft sr = .next { sr with pc := sr.pc + 1, S := int2val r :: rest } ∧
      i1 = q * i2 + r ∧ |r| < |i2| ∧
      (r = 0 ∨ (0 < r ∧ 0 < i1) ∨ (r < 0 ∧ i1 < 0)) ∧
      |q * i2| ≤ |i1| ∧ q = Int.tdiv i1 i2 ∧ r = Int.tmod i1 i2 ∧
      in_int32 q ∧ in_int32 r := by
  have hv1 : val2int (int2val i1) = i1 := val2int_int2val h1
  have hv2 : val2int (int2val i2) = i2 := val2int_int2val h2
  obtain ⟨hr0, hr1, hr2, hr3⟩ := tmod_bounds i1 i2 hz
  have hq : in_int32 (i1.tdiv i2) := tdiv_in_int32 h1 h2 hm
  have habs : |i2| ≤ 2147483648 := by
    unfold in_int32 at h2
    exact abs_le.mpr ⟨by omega, by omega⟩
  have hrin : in_int32 (i1.tmod i2) := by
    unfold in_int32; constructor <;> omega
  have hid : i1 = i1.tdiv i2 * i2 + i1.tmod i2 := (Int.tdiv_add_tmod' i1 i2).symm
  refine ⟨i1.tdiv i2, i1.tmod i2, ?_, ?_, hid, abs_lt.mpr ⟨hr2, hr3⟩, ?_, ?_, rfl, rfl, hq, hrin⟩
  · rw [idiv_step bc0 nft sd _ _ rest hd hSd, hv1, hv2, if_neg hz, if_neg hm,
      to_int32_of_in_int32 hq]
  · rw [irem_step bc0 nft sr _ _ rest hr hSr, hv1, hv2, if_neg hz, if_neg hm,
      to_int32_of_in_int32 hrin]
  · rcases lt_trichotomy i1 0 with hneg | hzero | hpos
    · have := hr1 (le_of_lt hneg); omega
    · have := hr0 (le_of_eq hzero.symm); have := hr1 (le_of_eq hzero); omega
    · have := hr0 (le_of_lt hpos); omega
  · have hqi : i1.tdiv i2 * i2 = i1 - i1.tmod i2 := by omega
    rw [hqi]
    rcases le_total 0 i1 with hpos | hneg
    · have := hr0 hpos
      have hle : i1.tmod i2 ≤ i1 := by
        rcases le_or_lt |i2| i1 with hbig | hsmall
        · omega
        · have hlt : i1 < |i2| := hsmall
          rcases abs_cases i2 with ⟨he, _⟩ | ⟨he, _⟩
          · rw [he] at hlt; rw [Int.tmod_eq_of_lt hpos hlt]
          · rw [he] at hlt
            have h4 := Int.tmod_eq_of_lt hpos hlt
            rw [Int.tmod_neg] at h4; rw [h4]
      rw [abs_of_nonneg (by omega), abs_of_nonneg hpos]; omega
    · have := hr1 hneg
      have hge : i1 ≤ i1.tmod i2 := by
        have hpos' : 0 ≤ -i1 := by omega
        have hn := neg_tmod_eq i1 i2
        rcases le_or_lt |i2| (-i1) with hbig | hsmall
        · omega
        · rcases abs_cases i2 with ⟨he, _⟩ | ⟨he, _⟩
          · rw [he] at hsmall
            have h4 := Int.tmod_eq_of_lt hpos' hsmall
            omega
          · rw [he] at hsmall
            have h4 := Int.tmod_eq_of_lt hpos' hsmall
            rw [Int.tmod_neg] at h4
            omega
      rw [abs_of_nonpos (by omega), abs_of_nonpos hneg]; omega

/-- Witness of C20: `-7 / 2 = -3` and `-7 % 2 = -1`. -/
theorem C20_div_rem_identity_witness :
    step (single [IDIV, IREM]) []
        (entry_state [int2val 2, int2val (-7)] [IDIV, IREM] 0 Heap.empty) =
        .next (entry_state [int2val (-3)] [IDIV, IREM] 1 Heap.empty) ∧
      step (single [IDIV, IREM]) []
        (entry_state [int2val 2, int2val (-7)] [IDIV, IREM] 1 Heap.empty) =
        .next (entry_state [int2val (-1)] [IDIV, IREM] 2 Heap.empty) :=
  let ⟨_, _, hq, hr, _, _, _, _, hqe, hre, _⟩ :=
    C20_div_rem_identity (single [IDIV, IREM]) []
      (entry_state [int2val 2, int2val (-7)] [IDIV, IREM] 0 Heap.empty)
      (entry_state [int2val 2, int2val (-7)] [IDIV, IREM] 1 Heap.empty)
      (-7) 2 [] (by decide) (by decide) rfl rfl rfl rfl (by decide) (by decide)
  ⟨by rw [hq, hqe]; rfl, by rw [hr, hre]; rfl⟩

end C0VM
